import Mathlib

/-!
A Lean model of the core services of the translate-line-bot repository:
the usage-quota ledger (`QuotaService`), the retry policy (`RetryPolicy`),
the translation-flow orchestrator (`TranslationFlowService`), the enrollment
payload codec (`_encode_postback_payload` / `decode_postback_payload`) and the
language-enrollment engine (`LanguageSettingsService`), together with theorems
about their behaviour.

Modelling conventions:
* Python strings are `List Char` (slicing and `len` are by code points, exactly
  as in Python); UTF-8 byte size is computed per character.
* Python `int` is `Int` (or `Nat` for values that are structurally counts).
* Mutable repository state is passed explicitly (`UsageStore`, `GroupStore`);
  a mutation log is carried so that "operation X was never invoked" is statable.
* Exceptions are `Except PyError`; a caught exception is a matched `.error`.
* External collaborators (JSON serialisation, zlib, the translation provider,
  the preference analyzer, wall-clock time) are parameters, exactly the ports
  the spec declares; everything inside the repository is translated from the
  source.
-/

namespace TranslateBot

/-- Python exception values distinguished by the translated code. -/
inductive PyError where
  | geminiRateLimit
  | requestsTimeout
  | runtimeError (msg : String)
  | valueError (msg : String)
  | other (tag : String)
deriving Repr, DecidableEq

/-- UTF-8 byte length of a Python string (`len(s.encode("utf-8"))`). -/
def utf8Len (s : List Char) : Nat :=
  (s.map Char.utf8Size).sum

/-- Bool test that a list starts with the given pattern (`str.startswith`). -/
def listStartsWith : List Char → List Char → Bool
  | [], _ => true
  | _ :: _, [] => false
  | p :: ps, x :: xs => x == p && listStartsWith ps xs

/-- Python `s.split(c, 1)` when the separator occurs, `none` otherwise. -/
def pySplitOnce (c : Char) : List Char → Option (List Char × List Char)
  | [] => none
  | x :: xs =>
    if x = c then some ([], xs)
    else (pySplitOnce c xs).map (fun pr => (x :: pr.1, pr.2))

/-- Python `s.rstrip("=")`: remove every trailing equals sign. -/
def pyRstripEq (s : List Char) : List Char :=
  (s.reverse.dropWhile (fun c => c = '=')).reverse

/-- Python `s.strip()`: remove leading and trailing whitespace. -/
def pyStrip (s : List Char) : List Char :=
  ((s.dropWhile Char.isWhitespace).reverse.dropWhile Char.isWhitespace).reverse

/-- Python `s.lower()`, modelled per character. -/
def toLowerList (s : List Char) : List Char :=
  s.map Char.toLower

/-- Python `sep.join(parts)`. -/
def joinWith (sep : List Char) : List (List Char) → List Char
  | [] => []
  | [x] => x
  | x :: y :: rest => x ++ sep ++ joinWith sep (y :: rest)

/-- Fuel-indexed worker for `splitOnSep` (Python `s.split(sep)`). -/
def splitOnSepGo (sep : List Char) : Nat → List Char → List (List Char)
  | _, [] => [[]]
  | 0, l => [l]
  | fuel + 1, c :: rest =>
    if sep.length > 0 && listStartsWith sep (c :: rest) then
      [] :: splitOnSepGo sep fuel ((c :: rest).drop sep.length)
    else
      match splitOnSepGo sep fuel rest with
      | [] => [[c]]
      | seg :: segs => (c :: seg) :: segs

/-- Python `s.split(sep)` for a non-empty separator. -/
def splitOnSep (sep l : List Char) : List (List Char) :=
  splitOnSepGo sep l.length l

/-- Fuel-indexed worker for `replaceSeq` (Python `s.replace(pat, rep)`). -/
def replaceSeqGo (pat rep : List Char) : Nat → List Char → List Char
  | _, [] => []
  | 0, l => l
  | fuel + 1, c :: rest =>
    if pat.length > 0 && listStartsWith pat (c :: rest) then
      rep ++ replaceSeqGo pat rep fuel ((c :: rest).drop pat.length)
    else
      c :: replaceSeqGo pat rep fuel rest

/-- Python `s.replace(pat, rep)`: left-to-right, non-overlapping. -/
def replaceSeq (pat rep l : List Char) : List Char :=
  replaceSeqGo pat rep l.length l

/-- Python `str(n)` for a natural number, as a char list. -/
def natChars (n : Nat) : List Char :=
  (toString n).data

end TranslateBot

namespace TranslateBot

/-- Decision DTO returned by `QuotaService.evaluate` (quota_service.py). -/
structure QuotaDecision where
  allowed : Bool
  should_notify : Bool
  stop_translation : Bool
  usage : Int
  limit : Int
  period_key : String
  plan_key : String
deriving Repr, DecidableEq

/-- State of the usage-counter repository (`UsageRepositoryPort`): the usage
counter and the last-notified-plan marker, both keyed by (group, period key),
plus a count of `increment_usage` invocations so that "the counter was never
incremented" is statable. -/
structure UsageStore where
  usage : String → String → Int
  noticePlan : String → String → Option String
  incCalls : Nat

/-- `repo.increment_usage(group_id, period_key, increment)`: atomically add and
return the new value. -/
def UsageStore.incrementUsage (s : UsageStore) (g pk : String) (inc : Int) :
    Int × UsageStore :=
  let newVal := s.usage g pk + inc
  (newVal,
    { s with
      usage := fun g2 p2 => if g2 = g ∧ p2 = pk then newVal else s.usage g2 p2
      incCalls := s.incCalls + 1 })

/-- Wall-clock/date operations consumed by `compute_period_key`, over an
abstract datetime type `DT`: ISO date of an anchor, `anchor - timedelta(days=31)`
and the first day of the current calendar month. -/
structure TimeEnv (DT : Type) where
  dateIso : DT → String
  minus31Days : DT → DT
  monthKey : String

/-- `QuotaService.compute_period_key`: billing-period start date for paid
tenants (period end minus 31 days as fallback), first day of the current month
otherwise. -/
def QuotaService.computePeriodKey {DT : Type} (env : TimeEnv DT) (paid : Bool)
    (periodStart periodEnd : Option DT) : String :=
  if paid then
    let anchor : Option DT :=
      match periodStart with
      | some a => some a
      | none =>
        match periodEnd with
        | some e => some (env.minus31Days e)
        | none => none
    match anchor with
    | some a => env.dateIso a
    | none => env.monthKey
  else
    env.monthKey

/-- `QuotaService.evaluate` (quota_service.py, lines 42-152), state-passing. -/
def QuotaService.evaluate {DT : Type} (env : TimeEnv DT) (store : UsageStore)
    (groupId : String) (paid : Bool) (limit : Int)
    (periodStart periodEnd : Option DT) (planKey : String) (increment : Int) :
    QuotaDecision × UsageStore :=
  let periodKey := QuotaService.computePeriodKey env paid periodStart periodEnd
  let noticePlan := store.noticePlan groupId periodKey
  let currentUsage := store.usage groupId periodKey
  if paid = false ∧ noticePlan = some planKey then
    (⟨false, false, false, currentUsage, limit, periodKey, planKey⟩, store)
  else if currentUsage ≥ limit then
    (⟨false, decide (noticePlan ≠ some planKey), !paid, currentUsage, limit,
      periodKey, planKey⟩, store)
  else
    let r := store.incrementUsage groupId periodKey increment
    let usageAfter := r.1
    let store2 := r.2
    if paid then
      if usageAfter > limit then
        (⟨false, decide (noticePlan ≠ some planKey), false, usageAfter, limit,
          periodKey, planKey⟩, store2)
      else if usageAfter = limit then
        (⟨true, decide (noticePlan ≠ some planKey), false, usageAfter, limit,
          periodKey, planKey⟩, store2)
      else
        (⟨true, false, false, usageAfter, limit, periodKey, planKey⟩, store2)
    else
      if usageAfter > limit then
        (⟨false, decide (noticePlan ≠ some planKey), true, usageAfter, limit,
          periodKey, planKey⟩, store2)
      else if usageAfter = limit then
        (⟨true, decide (noticePlan ≠ some planKey), false, usageAfter, limit,
          periodKey, planKey⟩, store2)
      else
        (⟨true, false, false, usageAfter, limit, periodKey, planKey⟩, store2)

/-- Modelled from the spec: `QuotaService.rollback` is absent from the provided
sources (only its caller `TranslationFlowService._rollback_usage` and the
repository's rollback tests refer to it). Per the spec it decrements the Usage
Ledger entry for the (tenant, period key) by the exact increment just
applied. -/
def QuotaService.rollback (store : UsageStore) (groupId periodKey : String)
    (increment : Int) : UsageStore :=
  { store with
    usage := fun g2 p2 =>
      if g2 = groupId ∧ p2 = periodKey then store.usage g2 p2 - increment
      else store.usage g2 p2 }

end TranslateBot

namespace TranslateBot

/-- `TranslationResult` DTO (models.py): ephemeral (language code, text). -/
structure TranslationResult where
  lang : List Char
  text : List Char
deriving Repr, DecidableEq

/-- `MessageEvent` dataclass (models.py), restricted to the fields the
translation flow reads. -/
structure MessageEvent where
  event_type : String
  reply_token : Option String
  group_id : Option String
  user_id : Option String
  sender_type : String
  timestamp : Int
  text : List Char

/-- `RetryPolicy` (retry_policy.py). `retriesRaw` is the constructor argument;
`__init__` stores `max(1, retries)`. The `backoff_base` field only controls
`time.sleep` between attempts (no observable effect on values), so it is not
carried. -/
structure RetryPolicy where
  retriesRaw : Int

/-- Effective attempt budget: `max(1, retries)` from `RetryPolicy.__init__`. -/
def RetryPolicy.retries (p : RetryPolicy) : Nat :=
  (max 1 p.retriesRaw).toNat

/-- The `for attempt in range(self._retries)` loop of `RetryPolicy.run`. The
wrapped operation is modelled as `f : Nat → Except PyError α`, giving the
outcome of its i-th invocation; the returned `Nat` counts invocations. The
final `match` on the captured error mirrors the two `raise` statements after
the loop, including the `RuntimeError` fallback. -/
def retryLoop {α : Type} (f : Nat → Except PyError α) :
    Nat → Nat → Option PyError → Nat → Except PyError α × Nat
  | _, 0, lastError, cnt =>
    (match lastError with
      | some e => (.error e, cnt)
      | none =>
        (.error (.runtimeError "RetryPolicy failed without capturing an exception"),
          cnt))
  | i, remaining + 1, _, cnt =>
    match f i with
    | .ok v => (.ok v, cnt + 1)
    | .error e => retryLoop f (i + 1) remaining (some e) (cnt + 1)

/-- `RetryPolicy.run` (retry_policy.py, lines 16-28): result plus the number of
invocations of the wrapped operation. -/
def RetryPolicy.run {α : Type} (p : RetryPolicy) (f : Nat → Except PyError α) :
    Except PyError α × Nat :=
  retryLoop f 0 p.retries none 0

/-- `TranslationFlowResult` dataclass (translation_flow_service.py). -/
structure TranslationFlowResult where
  decision : QuotaDecision
  reply_text : Option (List Char)

/-- `TranslationFlowService._invoke_translation_with_retry`. The bound
translation call is `f` (outcome per invocation); the three `except ... raise`
clauses all re-raise unchanged, so the result of the retry policy passes
through as is. Returns the result with the invocation count. -/
def invokeTranslationWithRetry (translationRetry : Int)
    (f : Nat → Except PyError (List TranslationResult))
    (candidateLanguages : List (List Char)) :
    Except PyError (List TranslationResult) × Nat :=
  if candidateLanguages.isEmpty then (.ok [], 0)
  else RetryPolicy.run ⟨max 1 translationRetry⟩ f

/-- `TranslationFlowService._rollback_usage`. -/
def rollbackUsage (quotaStore : UsageStore) (groupId periodKey : String)
    (increment : Int) : UsageStore :=
  if increment ≤ 0 then quotaStore
  else QuotaService.rollback quotaStore groupId periodKey increment

end TranslateBot

namespace TranslateBot

/-- `ContextMessage` dataclass (models.py). -/
structure ContextMessage (DT : Type) where
  sender_name : String
  text : List Char
  timestamp : DT

/-- Collaborators of `TranslationFlowService.run`: the time environment for the
quota service, millisecond-timestamp conversion, the bounded recent-message
fetch and the translation service invocation, whose i-th attempt yields
`translateAttempt i`. -/
structure FlowEnv (DT : Type) where
  time : TimeEnv DT
  fromTimestampMs : Int → DT
  fetchRecent : Option String → Nat → List (ContextMessage DT)
  translateAttempt : Nat → Except PyError (List TranslationResult)

end TranslateBot

namespace TranslateBot

/-- The base64url alphabet (`base64.urlsafe_b64encode`). -/
def b64Alphabet : List Char :=
  "ABCDEFGHIJKLMNOPQRSTUVWXYZabcdefghijklmnopqrstuvwxyz0123456789-_".data

/-- Character for a 6-bit group. -/
def b64Idx (n : Nat) : Char :=
  b64Alphabet.getD (n % 64) 'A'

/-- Padded base64url encoding of a byte list (`base64.urlsafe_b64encode`). -/
def b64Encode : List Nat → List Char
  | [] => []
  | b1 :: b2 :: b3 :: rest =>
    let n := b1 % 256 * 65536 + b2 % 256 * 256 + b3 % 256
    b64Idx (n / 262144) :: b64Idx (n / 4096) :: b64Idx (n / 64) :: b64Idx n ::
      b64Encode rest
  | [b1] =>
    let n := b1 % 256 * 65536
    [b64Idx (n / 262144), b64Idx (n / 4096), '=', '=']
  | [b1, b2] =>
    let n := b1 % 256 * 65536 + b2 % 256 * 256
    [b64Idx (n / 262144), b64Idx (n / 4096), b64Idx (n / 64), '=']

/-- Index of a character in the base64url alphabet, if any. -/
def b64CharVal (c : Char) : Option Nat :=
  b64Alphabet.indexOf? c

/-- Padded base64url decoding (`base64.urlsafe_b64decode` on well-padded
input; a malformed string yields `none`, modelling the caught
`binascii.Error`). -/
def b64Decode : List Char → Option (List Nat)
  | [] => some []
  | c1 :: c2 :: c3 :: c4 :: rest =>
    match b64CharVal c1, b64CharVal c2 with
    | some v1, some v2 =>
      if c3 = '=' then
        if c4 = '=' ∧ rest = [] then some [v1 * 4 + v2 / 16] else none
      else
        match b64CharVal c3 with
        | some v3 =>
          if c4 = '=' then
            if rest = [] then some [v1 * 4 + v2 / 16, v2 % 16 * 16 + v3 / 4]
            else none
          else
            match b64CharVal c4 with
            | some v4 =>
              (b64Decode rest).map
                (fun tl =>
                  (v1 * 4 + v2 / 16) :: (v2 % 16 * 16 + v3 / 4) ::
                    (v3 % 4 * 64 + v4) :: tl)
            | none => none
        | none => none
    | _, _ => none
  | _ => none

end TranslateBot

namespace TranslateBot

/-- External serialisation collaborators of the enrollment payload codec, over
an abstract payload type `P`:
`jsonDumpsUtf8` models `json.dumps(data, separators=(",", ":")).encode("utf-8")`,
`zlibCompress` / `zlibDecompress` model `zlib.compress` / `zlib.decompress`
(`none` on `zlib.error`), and `jsonLoadsUtf8` models
`json.loads(blob.decode("utf-8"))` (`none` when decoding or parsing fails). -/
structure CodecEnv (P : Type) where
  jsonDumpsUtf8 : P → List Nat
  zlibCompress : List Nat → List Nat
  zlibDecompress : List Nat → Option (List Nat)
  jsonLoadsUtf8 : List Nat → Option P

/-- The inner `_encode` closure of `_encode_postback_payload`:
`f"langpref2={base64.urlsafe_b64encode(zlib.compress(raw)).decode('ascii').rstrip('=')}"`. -/
def encodeToken {P : Type} (env : CodecEnv P) (payload : P) : List Char :=
  "langpref2=".data ++
    pyRstripEq (b64Encode (env.zlibCompress (env.jsonDumpsUtf8 payload)))

/-- Dictionary accesses performed by the shrink policy of
`_encode_postback_payload` on the payload's optional text fields. Only the keys
"limit_text", "cancel_text" and "completion_text" are ever consulted. -/
structure PayloadOps (P : Type) where
  hasTruthy : P → String → Bool
  getText : P → String → List Char
  setText : P → String → List Char → P
  hasKey : P → String → Bool
  popKey : P → String → P

/-- `_shrink_text(key, factor=0.6)`: truncate the field to
`max(int(len(text) * 0.6), 32)` characters and report whether anything was
present. `int(len(text) * 0.6)` equals `6 * len / 10` in exact arithmetic (the
float product never rounds across an integer boundary). -/
def shrinkText {P : Type} (ops : PayloadOps P) (payload : P) (key : String) :
    Bool × P :=
  if ops.hasTruthy payload key then
    let text := ops.getText payload key
    let newLen := max (text.length * 6 / 10) 32
    (true, ops.setText payload key (text.take newLen))
  else (false, payload)

/-- The `for _ in range(3)` inner loop of `_encode_postback_payload` for one
key: `.error encoded` models the early `return encoded` when the token fits,
`.ok payload` continues with the (possibly shrunk) payload. -/
def shrinkRounds {P : Type} (env : CodecEnv P) (ops : PayloadOps P)
    (maxBytes : Nat) (key : String) : Nat → P → Except (List Char) P
  | 0, payload => .ok payload
  | fuel + 1, payload =>
    let r := shrinkText ops payload key
    let encoded := encodeToken env r.2
    if utf8Len encoded ≤ maxBytes then .error encoded
    else if !r.1 then .ok r.2
    else shrinkRounds env ops maxBytes key fuel r.2

/-- One iteration of the `for key in optional_keys` loop: three shrink rounds,
then `payload.pop(key, None)` with a final fit check. -/
def shrinkKeyStep {P : Type} (env : CodecEnv P) (ops : PayloadOps P)
    (maxBytes : Nat) (payload : P) (key : String) : Except (List Char) P :=
  match shrinkRounds env ops maxBytes key 3 payload with
  | .error encoded => .error encoded
  | .ok payload1 =>
    if ops.hasKey payload1 key then
      let payload2 := ops.popKey payload1 key
      let encoded := encodeToken env payload2
      if utf8Len encoded ≤ maxBytes then .error encoded else .ok payload2
    else .ok payload1

/-- The `for key in optional_keys` loop over the priority-ordered keys. -/
def shrinkKeys {P : Type} (env : CodecEnv P) (ops : PayloadOps P)
    (maxBytes : Nat) : List String → P → Except (List Char) P
  | [], payload => .ok payload
  | key :: keys, payload =>
    match shrinkKeyStep env ops maxBytes payload key with
    | .error encoded => .error encoded
    | .ok payload1 => shrinkKeys env ops maxBytes keys payload1

/-- `LanguageSettingsService._encode_postback_payload(payload, max_bytes=280)`
(language_settings_service.py, lines 293-332). -/
def encodePostbackPayload {P : Type} (env : CodecEnv P) (ops : PayloadOps P)
    (payload : P) (maxBytes : Nat) : List Char :=
  let encoded := encodeToken env payload
  if utf8Len encoded ≤ maxBytes then encoded
  else
    match shrinkKeys env ops maxBytes
        ["limit_text", "cancel_text", "completion_text"] payload with
    | .error encoded2 => encoded2
    | .ok payload1 => (encodeToken env payload1).take maxBytes

/-- `decode_postback_payload` (subscription_postback.py, lines 9-40). The
`prefix, token = data.split("=", 1)` unpacking sits before the `try` block, so
a "langpref"-headed string without any equals sign raises `ValueError`; every
failure inside the `try` block maps to `.ok none`. -/
def decodePostbackPayload {P : Type} (env : CodecEnv P) (data : List Char) :
    Except PyError (Option P) :=
  if data.isEmpty then .ok none
  else if listStartsWith "langpref".data data then
    match pySplitOnce '=' data with
    | none => .error (.valueError "not enough values to unpack")
    | some (schemeTag, token) =>
      let padding := List.replicate ((4 - token.length % 4) % 4) '='
      match b64Decode (token ++ padding) with
      | none => .ok none
      | some blob =>
        let blob2 : Option (List Nat) :=
          if schemeTag = "langpref2".data then env.zlibDecompress blob
          else some blob
        match blob2 with
        | none => .ok none
        | some blob3 =>
          match env.jsonLoadsUtf8 blob3 with
          | none => .ok none
          | some payload => .ok (some payload)
  else if listStartsWith "subctrl=".data data then
    match pySplitOnce '=' data with
    | none => .error (.other "IndexError")
    | some (_, token) =>
      let padding := List.replicate ((4 - token.length % 4) % 4) '='
      match b64Decode (token ++ padding) with
      | none => .ok none
      | some blob =>
        match env.jsonLoadsUtf8 blob with
        | none => .ok none
        | some payload => .ok (some payload)
  else .ok none

end TranslateBot

namespace TranslateBot

/-- `RTL_LANG_PREFIXES` (reply_formatter.py). -/
def rtlLangHeads : List (List Char) :=
  ["ar".data, "he".data, "fa".data, "ur".data, "ps".data, "ku".data,
   "sd".data, "ug".data, "yi".data]

/-- `lowered.startswith(RTL_LANG_PREFIXES)`. -/
def startsWithRtl (lowered : List Char) : Bool :=
  rtlLangHeads.any (fun h => listStartsWith h lowered)

/-- `_wrap_bidi_isolate` (reply_formatter.py): embedding marks around a line,
direction chosen from the language code. -/
def wrapBidiIsolate (text : List Char) (lang : List Char) : List Char :=
  if text.isEmpty then text
  else
    let lowered := toLowerList lang
    if startsWithRtl lowered then
      Char.ofNat 0x200F :: Char.ofNat 0x202B :: text ++
        [Char.ofNat 0x202C, Char.ofNat 0x200F]
    else
      Char.ofNat 0x200E :: Char.ofNat 0x202A :: text ++
        [Char.ofNat 0x202C, Char.ofNat 0x200E]

/-- Punctuation class of the echo-stripping regex:
`[-:：、，,。　]`. -/
def echoPunct : List Char :=
  ['-', ':', '：', '、', '，', ',', '。', '　']

/-- Character set of the `lstrip(" ()[]-—–:：、，,。　")` call in
`strip_source_echo`. -/
def echoLstripSet : List Char :=
  [' ', '(', ')', '[', ']', '-', '—', '–', ':', '：', '、', '，', ',', '。',
   '　']

/-- `strip_source_echo` (reply_formatter.py, lines 24-45). The anchored
`re.sub` with the escaped source and `re.IGNORECASE` is modelled as a
case-insensitive literal-prefix removal followed by dropping whitespace and the
punctuation class. -/
def stripSourceEcho (sourceText translatedText : List Char) : List Char :=
  if sourceText.isEmpty || translatedText.isEmpty then translatedText
  else
    let source := pyStrip sourceText
    let candidate := pyStrip translatedText
    if toLowerList candidate = toLowerList source then []
    else
      let candidate2 :=
        if listStartsWith (toLowerList source) (toLowerList candidate) then
          ((candidate.drop source.length).dropWhile Char.isWhitespace).dropWhile
            (fun c => c ∈ echoPunct)
        else candidate
      let candidate3 :=
        if listStartsWith source candidate2 then
          (candidate2.drop source.length).dropWhile (fun c => c ∈ echoLstripSet)
        else candidate2
      pyStrip candidate3

/-- `format_translations` (reply_formatter.py): keep the non-empty stripped
texts, wrap each for bidirectional stability, join with blank lines, cut at
`MAX_REPLY_LENGTH = 5000`. -/
def formatTranslations (translations : List TranslationResult) : List Char :=
  let lines :=
    (translations.map (fun item => (pyStrip item.text, item.lang))).filter
      (fun pr => !pr.1.isEmpty)
  (joinWith "\n\n".data (lines.map (fun pr => wrapBidiIsolate pr.1 pr.2))).take
    5000

/-- `build_translation_reply` (reply_formatter.py). -/
def buildTranslationReply (originalText : List Char)
    (translations : List TranslationResult) : List Char :=
  formatTranslations
    (translations.map
      (fun item => ⟨item.lang, stripSourceEcho originalText item.text⟩))

/-- `TranslationFlowService.run` (translation_flow_service.py, lines 48-107):
quota evaluation, context fetch, translation with retry, rollback on exception
or on an empty result, reply composition on success. The outcome is the
returned (or raised) value together with the final usage-store state. -/
def TranslationFlowService.run {DT : Type} (env : FlowEnv DT)
    (quotaStore : UsageStore) (translationRetry : Int) (maxContext : Nat)
    (ev : MessageEvent) (candidateLanguages : List (List Char)) (paid : Bool)
    (limit : Int) (planKey : String) (periodStart periodEnd : Option DT) :
    Except PyError TranslationFlowResult × UsageStore :=
  let r := QuotaService.evaluate env.time quotaStore (ev.group_id.getD "") paid
    limit periodStart periodEnd planKey 1
  let decision := r.1
  let store1 := r.2
  if !decision.allowed then (.ok ⟨decision, none⟩, store1)
  else
    let increment : Int := 1
    let groupId := ev.group_id.getD ""
    let _contextMessages := env.fetchRecent ev.group_id maxContext
    let _timestamp := env.fromTimestampMs ev.timestamp
    match (invokeTranslationWithRetry translationRetry env.translateAttempt
        candidateLanguages).1 with
    | .error e =>
      (.error e, rollbackUsage store1 groupId decision.period_key increment)
    | .ok translations =>
      if translations.isEmpty then
        (.ok ⟨decision, none⟩,
          rollbackUsage store1 groupId decision.period_key increment)
      else
        (.ok ⟨decision, some (buildTranslationReply ev.text translations)⟩,
          store1)

end TranslateBot

namespace TranslateBot

/-- `LanguageChoice` dataclass (models.py). -/
structure LanguageChoice where
  code : List Char
  name : List Char
deriving Repr, DecidableEq

/-- `LanguagePreference` dataclass (models.py). -/
structure LanguagePreference where
  supported : List LanguageChoice
  unsupported : List LanguageChoice
  confirm_label : List Char
  cancel_label : List Char
  primary_language : List Char
deriving Repr, DecidableEq

/-- A renderable reply block: either a plain text message dict or the confirm
template message dict that `propose` builds (alt text, template text, and two
postback actions carrying a label and encoded data each). -/
inductive ReplyMessage where
  | text (s : List Char)
  | confirmTemplate (altText templText confirmLabel confirmData
      cancelLabel cancelData : List Char)
deriving Repr, DecidableEq

/-- Modelled from the spec: the `ReplyBundle` model is absent from the provided
models.py (only its constructor calls `ReplyBundle(texts=...)` and
`ReplyBundle(messages=...)` appear in the sources); per the spec it is a
structured reply bundle, an ordered list of renderable blocks, built either
from plain texts or from structured messages. -/
structure ReplyBundle where
  texts : List (List Char)
  messages : List ReplyMessage
deriving Repr, DecidableEq

/-- `ReplyBundle(texts=ts)`. -/
def ReplyBundle.ofTexts (ts : List (List Char)) : ReplyBundle := ⟨ts, []⟩

/-- `ReplyBundle(messages=ms)`. -/
def ReplyBundle.ofMessages (ms : List ReplyMessage) : ReplyBundle := ⟨[], ms⟩

/-- The interface-translation collaborators: whether the
`InterfaceTranslationService` object itself is present, whether its
`_translator` attribute is set, and the wrapped translation port (a total
function, as the spec specifies the port by its interface). -/
structure IfaceEnv where
  objPresent : Bool
  translatorConfigured : Bool
  portTranslate : List Char → List (List Char) → List TranslationResult

/-- Target-deduplication loop of `InterfaceTranslationService.translate`:
skip falsy codes, deduplicate case-insensitively, keep original spelling. -/
def dedupTargetsGo (seen : List (List Char)) :
    List (List Char) → List (List Char)
  | [] => []
  | lang :: rest =>
    if lang.isEmpty then dedupTargetsGo seen rest
    else
      let lowered := toLowerList lang
      if lowered ∈ seen then dedupTargetsGo seen rest
      else lang :: dedupTargetsGo (lowered :: seen) rest

/-- `InterfaceTranslationService.translate`
(interface_translation_service.py). -/
def ifaceServiceTranslate (env : IfaceEnv) (baseText : List Char)
    (targetLanguages : List (List Char)) : List TranslationResult :=
  let uniqueTargets := dedupTargetsGo [] targetLanguages
  if baseText.isEmpty || uniqueTargets.isEmpty then []
  else env.portTranslate baseText uniqueTargets

/-- The `"\n---\n"` delimiter of `_translate_template`. -/
def tmplDelim : List Char := "\n---\n".data

/-- `LanguageSettingsService._normalize_template_text`. -/
def normalizeTemplateText (text : List Char) : List Char :=
  pyStrip (replaceSeq "\n\n".data "\n".data text)

/-- Core of `LanguageSettingsService._translate_template` over a list of
originals: `none` models every `return base_text` fallback branch, `some`
carries the normalized translated parts. -/
def translateTemplateCore (env : IfaceEnv) (originals : List (List Char))
    (instructionLang : List Char) (force : Bool) :
    Option (List (List Char)) :=
  if instructionLang.isEmpty then none
  else
    let lowered := toLowerList instructionLang
    if listStartsWith "en".data lowered && !force then none
    else if originals.isEmpty then none
    else
      let joined := joinWith tmplDelim originals
      if !env.objPresent || !env.translatorConfigured then none
      else
        match ifaceServiceTranslate env joined [instructionLang] with
        | [] => none
        | t :: _ =>
          let s0 := stripSourceEcho joined t.text
          let translated :=
            if !s0.isEmpty then s0
            else if !t.text.isEmpty then t.text
            else joined
          let parts := splitOnSep tmplDelim translated
          if parts.length = originals.length then
            some ((parts.zip originals).map
              (fun pr =>
                normalizeTemplateText (if pr.1.isEmpty then pr.2 else pr.1)))
          else none

/-- `_translate_template` applied to a single string. -/
def translateTemplateSingle (env : IfaceEnv)
    (baseText instructionLang : List Char) (force : Bool) : List Char :=
  match translateTemplateCore env [baseText] instructionLang force with
  | some results => results.getD 0 []
  | none => baseText

/-- `LanguageSettingsService._build_language_limit_message`. -/
def buildLanguageLimitMessage (env : IfaceEnv) (maxGroupLanguages : Nat)
    (instructionLang : List Char) : List Char :=
  let base := "You can set up to ".data ++ natChars maxGroupLanguages ++
    " translation languages. Please specify ".data ++
    natChars maxGroupLanguages ++ " or fewer.".data
  if instructionLang.isEmpty ||
      listStartsWith "en".data (toLowerList instructionLang) then base
  else
    let translated := translateTemplateSingle env base instructionLang true
    if translated.isEmpty then base else translated

/-- `LanguageSettingsService._format_unsupported_message`. -/
def formatUnsupportedMessage (env : IfaceEnv)
    (unsupported : List LanguageChoice) (instructionLang : List Char) :
    List Char :=
  let names := (unsupported.filter (fun l => !l.code.isEmpty)).map
    (fun l => if !l.name.isEmpty then l.name else l.code)
  let filtered := names.filter (fun n => !n.isEmpty)
  let base := "The following languages are not supported: ".data ++
    joinWith ", ".data filtered
  let translated := translateTemplateSingle env base instructionLang true
  if translated.isEmpty then base else translated

/-- `LanguageSettingsService._build_simple_confirm_text`. -/
def buildSimpleConfirmText (limitedSupported : List LanguageChoice) :
    List Char :=
  let names := (limitedSupported.filter (fun l => !l.code.isEmpty)).map
    (fun l => if !l.name.isEmpty then l.name else l.code)
  let filtered := names.filter (fun n => !n.isEmpty)
  if filtered.isEmpty then "Do you want to enable translation?".data
  else
    let joined :=
      if filtered.length = 1 then filtered.getD 0 []
      else if filtered.length = 2 then joinWith " and ".data filtered
      else joinWith ", ".data filtered.dropLast ++ ", and ".data ++
        filtered.getLastD []
    "Do you want to enable translation for ".data ++ joined ++ "?".data

/-- `LanguageSettingsService._build_completion_message`. -/
def buildCompletionMessage (languages : List (List Char × List Char)) :
    List Char :=
  let names := (languages.filter (fun pr => !pr.1.isEmpty)).map
    (fun pr => if !pr.2.isEmpty then pr.2 else pr.1)
  let filtered := names.filter (fun n => !n.isEmpty)
  if filtered.isEmpty then "Translation languages have been updated.".data
  else if filtered.length = 1 then
    filtered.getD 0 [] ++ " has been set as the translation language.".data
  else
    let joined :=
      if filtered.length = 2 then joinWith " and ".data filtered
      else joinWith ", ".data filtered.dropLast ++ ", and ".data ++
        filtered.getLastD []
    joined ++ " have been set as the translation languages.".data

/-- `LanguageSettingsService._build_cancel_message`. -/
def buildCancelMessage : List Char :=
  "Language update has been cancelled. Please tell me all languages again.".data

/-- `LanguageSettingsService._truncate`. -/
def pyTruncate (text : List Char) (limit : Nat) : List Char :=
  if text.isEmpty then []
  else if text.length ≤ limit then text
  else text.take (limit - 1) ++ ['…']

/-- `LanguageSettingsService._language_analysis_fallback`. -/
def languageAnalysisFallback : List Char :=
  ("ごめんなさい、翻訳する言語の確認に失敗しました。数秒おいてから、翻訳したい言語をカンマ区切りで送ってください。\n" ++
    "Sorry, I couldn't detect your languages. Please resend after a few seconds (e.g., English, 日本語, 中文, ไทย).\n" ++
    "ขออภัย ไม่สามารถระบุภาษาได้ กรุณาลองส่งมาใหม่อีกครั้ง (ตัวอย่าง: English, 日本語, 中文, ไทย)").data

end TranslateBot

namespace TranslateBot

/-- The dictionary returned by
`LanguageSettingsService._prepare_language_prompt_texts`. -/
structure PromptTexts where
  confirm_text : List Char
  confirm_label : List Char
  cancel_label : List Char
  completion_text : List Char
  cancel_text : List Char
  primary_language : List Char
deriving Repr, DecidableEq

/-- `LanguageSettingsService._prepare_language_prompt_texts`. -/
def prepareLanguagePromptTexts (env : IfaceEnv)
    (supported : List LanguageChoice) (pref : LanguagePreference) :
    PromptTexts :=
  let primaryLang := toLowerList pref.primary_language
  let baseConfirm := buildSimpleConfirmText supported
  let baseCancel := buildCancelMessage
  let baseConfirmLabel :=
    if !pref.confirm_label.isEmpty then pref.confirm_label else "OK".data
  let baseCancelLabel :=
    if !pref.cancel_label.isEmpty then pref.cancel_label else "Cancel".data
  let defaults := [baseConfirm, baseCancel, baseConfirmLabel, baseCancelLabel]
  let translated := (translateTemplateCore env defaults primaryLang true).getD
    defaults
  let translatedConfirm := translated.getD 0 []
  let translatedCancel := translated.getD 1 []
  let translatedConfirmLabel := translated.getD 2 []
  let translatedCancelLabel := translated.getD 3 []
  let confirmText0 := normalizeTemplateText
    (if !translatedConfirm.isEmpty then translatedConfirm else baseConfirm)
  let confirmText :=
    pyTruncate (if !confirmText0.isEmpty then confirmText0 else baseConfirm) 240
  let baseCompletion :=
    buildCompletionMessage (supported.map (fun l => (l.code, l.name)))
  let completionText0 := normalizeTemplateText baseCompletion
  let completionText := pyTruncate
    (if !completionText0.isEmpty then completionText0 else baseCompletion) 240
  let cancelText0 := normalizeTemplateText
    (if !translatedCancel.isEmpty then translatedCancel else baseCancel)
  let cancelText :=
    pyTruncate (if !cancelText0.isEmpty then cancelText0 else baseCancel) 240
  { confirm_text := confirmText
    confirm_label :=
      if !translatedConfirmLabel.isEmpty then translatedConfirmLabel
      else baseConfirmLabel
    cancel_label :=
      if !translatedCancelLabel.isEmpty then translatedCancelLabel
      else baseCancelLabel
    completion_text := completionText
    cancel_text := cancelText
    primary_language := primaryLang }

/-- The payload dict built for the confirm / cancel postback actions in
`propose`: fixed keys, an optional language list, and the three optional text
fields the shrink policy may touch (`Option` models key presence). -/
structure LangConfirmPayload where
  kind : List Char
  action : List Char
  languages : Option (List (List Char × List Char))
  primary_language : List Char
  completion_text : Option (List Char)
  limit_text : Option (List Char)
  cancel_text : Option (List Char)
deriving Repr, DecidableEq

/-- Python truthiness of an optional string field. -/
def optTruthy : Option (List Char) → Bool
  | some t => !t.isEmpty
  | none => false

/-- Dictionary accesses of the shrink policy on a `LangConfirmPayload`. Only
the keys "limit_text", "cancel_text" and "completion_text" are ever consulted
by `_encode_postback_payload`; any other key reports absent. -/
def langConfirmOps : PayloadOps LangConfirmPayload :=
  { hasTruthy := fun p k =>
      if k = "limit_text" then optTruthy p.limit_text
      else if k = "cancel_text" then optTruthy p.cancel_text
      else if k = "completion_text" then optTruthy p.completion_text
      else false
    getText := fun p k =>
      if k = "limit_text" then p.limit_text.getD []
      else if k = "cancel_text" then p.cancel_text.getD []
      else if k = "completion_text" then p.completion_text.getD []
      else []
    setText := fun p k v =>
      if k = "limit_text" then { p with limit_text := some v }
      else if k = "cancel_text" then { p with cancel_text := some v }
      else if k = "completion_text" then { p with completion_text := some v }
      else p
    hasKey := fun p k =>
      if k = "limit_text" then p.limit_text.isSome
      else if k = "cancel_text" then p.cancel_text.isSome
      else if k = "completion_text" then p.completion_text.isSome
      else false
    popKey := fun p k =>
      if k = "limit_text" then { p with limit_text := none }
      else if k = "cancel_text" then { p with cancel_text := none }
      else if k = "completion_text" then { p with completion_text := none }
      else p }

/-- The confirm-action payload dict literal of `propose`. -/
def confirmPayloadFor (env : IfaceEnv) (maxGroupLanguages : Nat)
    (limitedSupported : List LanguageChoice) (promptTexts : PromptTexts)
    (prefPrimary : List Char) : LangConfirmPayload :=
  { kind := "language_confirm".data
    action := "confirm".data
    languages := some (limitedSupported.map (fun l => (l.code, l.name)))
    primary_language := promptTexts.primary_language
    completion_text := some promptTexts.completion_text
    limit_text := some (buildLanguageLimitMessage env maxGroupLanguages
      prefPrimary)
    cancel_text := none }

/-- The cancel-action payload dict literal of `propose`. -/
def cancelPayloadFor (promptTexts : PromptTexts) : LangConfirmPayload :=
  { kind := "language_confirm".data
    action := "cancel".data
    languages := none
    primary_language := promptTexts.primary_language
    completion_text := none
    limit_text := none
    cancel_text := some promptTexts.cancel_text }

end TranslateBot

namespace TranslateBot

/-- Repository mutations performed by the enrollment flow, for the audit
log. -/
inductive GroupMutation where
  | insertMarkerRow (g : Option String)
  | setEnabled (g : Option String) (enabled : Bool)
  | replaceLanguages (g : Option String)
      (langs : List (List Char × List Char))
  | stampCompleted (g : Option String)
  | recordPrompt (g : Option String)
deriving Repr, DecidableEq

/-- State of the message repository rows the enrollment flow touches, keyed by
the group id exactly as passed (which may be `None`): the `group_members`
marker row and its `last_completed_at` / `last_prompted_at` stamps, the
`group_languages` set, the `translation_enabled` setting, and an append-only
log of the mutations performed. -/
structure GroupStore where
  memberRow : Option String → Bool
  completedAt : Option String → Bool
  groupLanguages : Option String → List (List Char × List Char)
  translationEnabled : Option String → Option Bool
  promptedAt : Option String → Bool
  mutations : List GroupMutation

/-- `repo.set_translation_enabled(group_id, enabled)`
(neon_repositories.py, lines 222-240; upsert of `group_settings`). -/
def GroupStore.setTranslationEnabled (s : GroupStore) (g : Option String)
    (enabled : Bool) : GroupStore :=
  { s with
    translationEnabled := fun g2 =>
      if g2 = g then some enabled else s.translationEnabled g2
    mutations := s.mutations ++ [.setEnabled g enabled] }

/-- `repo.record_language_prompt(group_id)` (neon_repositories.py, lines
94-104): upsert the marker row, stamp `last_prompted_at`, null
`last_completed_at`. -/
def GroupStore.recordLanguagePrompt (s : GroupStore) (g : Option String) :
    GroupStore :=
  { s with
    memberRow := fun g2 => if g2 = g then true else s.memberRow g2
    promptedAt := fun g2 => if g2 = g then true else s.promptedAt g2
    completedAt := fun g2 => if g2 = g then false else s.completedAt g2
    mutations := s.mutations ++ [.recordPrompt g] }

/-- The `INSERT ... ON CONFLICT DO NOTHING` of the completion gate. -/
def GroupStore.insertMarkerRowIfAbsent (s : GroupStore) (g : Option String) :
    GroupStore :=
  if s.memberRow g then s
  else
    { s with
      memberRow := fun g2 => if g2 = g then true else s.memberRow g2
      mutations := s.mutations ++ [.insertMarkerRow g] }

/-- Worker for `NeonMessageRepository._normalize_languages`. -/
def normalizeLanguagesGo (seen : List (List Char)) :
    List (List Char × List Char) → List (List Char × List Char)
  | [] => []
  | (code, langName) :: rest =>
    let lowered := toLowerList code
    if lowered.isEmpty || lowered ∈ seen then normalizeLanguagesGo seen rest
    else (lowered, langName) :: normalizeLanguagesGo (lowered :: seen) rest

/-- `NeonMessageRepository._normalize_languages(languages, existing)`:
lowercase, drop empty codes, deduplicate, exclude existing codes. -/
def normalizeLanguages (languages : List (List Char × List Char))
    (existing : List (List Char)) : List (List Char × List Char) :=
  normalizeLanguagesGo
    ((existing.filter (fun c => !c.isEmpty)).map toLowerList) languages

/-- `NeonMessageRepository.try_complete_group_languages`
(neon_repositories.py, lines 106-155): insert-if-absent the marker row, lock
it, abort when `last_completed_at` is set; otherwise replace the language set
(delete plus insert of the normalized, capped list) and stamp completion, all
in one transaction. -/
def tryCompleteGroupLanguages (maxGroupLanguages : Nat) (store : GroupStore)
    (g : Option String) (languages : List (List Char × List Char)) :
    Bool × GroupStore :=
  let normalized := normalizeLanguages languages []
  let limited := normalized.take maxGroupLanguages
  let store1 := store.insertMarkerRowIfAbsent g
  if store1.completedAt g then (false, store1)
  else
    let store2 :=
      { store1 with
        groupLanguages := fun g2 =>
          if g2 = g then limited else store1.groupLanguages g2
        mutations := store1.mutations ++ [GroupMutation.replaceLanguages g limited] }
    let store3 :=
      { store2 with
        completedAt := fun g2 => if g2 = g then true else store2.completedAt g2
        mutations := store2.mutations ++ [GroupMutation.stampCompleted g] }
    (true, store3)

/-- Worker for `LanguageSettingsService._dedup_languages`. -/
def dedupLanguagesGo (seen : List (List Char)) :
    List (List Char × List Char) → List (List Char × List Char)
  | [] => []
  | (code, langName) :: rest =>
    let lowered := toLowerList code
    if lowered.isEmpty || lowered ∈ seen then dedupLanguagesGo seen rest
    else (lowered, langName) :: dedupLanguagesGo (lowered :: seen) rest

/-- `LanguageSettingsService._dedup_languages`. -/
def dedupLanguages (languages : List (List Char × List Char)) :
    List (List Char × List Char) :=
  dedupLanguagesGo [] languages

/-- Worker for `LanguageSettingsService._limit_language_choices`: the source
loop, with the `seen` set and both accumulators made explicit. -/
def limitChoicesGo (maxGroupLanguages : Nat) (seen : List (List Char))
    (limited dropped : List LanguageChoice) :
    List LanguageChoice → List LanguageChoice × List LanguageChoice
  | [] => (limited, dropped)
  | lang :: rest =>
    let code := toLowerList lang.code
    if code.isEmpty || code ∈ seen then
      limitChoicesGo maxGroupLanguages seen limited dropped rest
    else if limited.length < maxGroupLanguages then
      limitChoicesGo maxGroupLanguages (code :: seen)
        (limited ++ [⟨code, lang.name⟩]) dropped rest
    else
      limitChoicesGo maxGroupLanguages (code :: seen) limited
        (dropped ++ [⟨code, lang.name⟩]) rest

/-- `LanguageSettingsService._limit_language_choices`
(language_settings_service.py, lines 131-146). -/
def limitLanguageChoices (maxGroupLanguages : Nat)
    (languages : List LanguageChoice) :
    List LanguageChoice × List LanguageChoice :=
  limitChoicesGo maxGroupLanguages [] [] [] languages

end TranslateBot

namespace TranslateBot

/-- Worker building the `text_by_lang` map of
`_build_multilingual_completion_message`: first occurrence per lowered
language code, echo-stripped and stripped text. -/
def textByLangGo (baseText : List Char)
    (acc : List (List Char × List Char)) :
    List TranslationResult → List (List Char × List Char)
  | [] => acc
  | item :: rest =>
    let lowered := toLowerList item.lang
    if lowered.isEmpty || acc.any (fun pr => pr.1 == lowered) then
      textByLangGo baseText acc rest
    else
      let cleaned := stripSourceEcho baseText item.text
      let value := pyStrip
        (if !cleaned.isEmpty then cleaned
         else if !item.text.isEmpty then item.text
         else baseText)
      textByLangGo baseText (acc ++ [(lowered, value)]) rest

/-- The `for lang in target_langs` line-collection loop of
`_build_multilingual_completion_message`. -/
def completionLinesGo (textByLang : List (List Char × List Char))
    (seenTexts : List (List Char)) (lines : List (List Char)) :
    List (List Char) → List (List Char)
  | [] => lines
  | lang :: rest =>
    match (textByLang.find? (fun pr => pr.1 == lang)).map Prod.snd with
    | some translated =>
      if !translated.isEmpty && !(seenTexts.contains translated) then
        let cleaned := pyStrip translated
        let line :=
          if startsWithRtl (toLowerList lang) then wrapBidiIsolate cleaned lang
          else cleaned
        completionLinesGo textByLang (seenTexts ++ [cleaned])
          (lines ++ [line]) rest
      else completionLinesGo textByLang seenTexts lines rest
    | none => completionLinesGo textByLang seenTexts lines rest

/-- Worker for the order-preserving dedup list comprehension of
`_build_multilingual_completion_message`. -/
def dedupKeepFirstGo (seen : List (List Char)) :
    List (List Char) → List (List Char)
  | [] => []
  | l :: rest =>
    if l.isEmpty || l ∈ seen then dedupKeepFirstGo seen rest
    else l :: dedupKeepFirstGo (l :: seen) rest

/-- `LanguageSettingsService._build_multilingual_completion_message`
(language_settings_service.py, lines 247-291). The translation port is a total
function here, so the `except` fallback around it is never taken. -/
def buildMultilingualCompletionMessage (env : IfaceEnv) (baseText : List Char)
    (languages : List (List Char × List Char)) : List Char :=
  let deduped := dedupKeepFirstGo []
    ((languages.filter (fun pr => !pr.1.isEmpty)).map
      (fun pr => toLowerList pr.1))
  let includeEn := deduped.any (fun l => listStartsWith "en".data l)
  let targetLangs := deduped.filter (fun l => !listStartsWith "en".data l)
  if !env.objPresent || targetLangs.isEmpty then
    if includeEn then baseText else []
  else
    let translations := ifaceServiceTranslate env baseText targetLangs
    let textByLang := textByLangGo baseText [] translations
    let startLines : List (List Char) :=
      if includeEn then
        (let baseLine := pyStrip baseText
         if !baseLine.isEmpty then [baseLine] else [])
      else []
    joinWith "\n\n".data
      (completionLinesGo textByLang startLines startLines targetLangs)

/-- Collaborators and configuration of `LanguageSettingsService`: the repo
state is a `GroupStore`, the preference analyzer may raise or return nothing,
the interface-translation service is an `IfaceEnv`, and the codec
collaborators serialise `LangConfirmPayload` dicts. -/
structure SettingsDeps where
  iface : IfaceEnv
  codec : CodecEnv LangConfirmPayload
  analyze : List Char → Except PyError (Option LanguagePreference)
  maxGroupLanguages : Nat

/-- `LanguageSettingsService.propose` (language_settings_service.py, lines
26-97), state-passing over the `GroupStore`. -/
def LanguageSettingsService.propose (deps : SettingsDeps) (store : GroupStore)
    (ev : MessageEvent) : Option ReplyBundle × GroupStore :=
  match deps.analyze ev.text with
  | .error _ => (some (ReplyBundle.ofTexts [languageAnalysisFallback]), store)
  | .ok none => (some (ReplyBundle.ofTexts [languageAnalysisFallback]), store)
  | .ok (some result) =>
    let supported := result.supported
    let unsupported := result.unsupported
    let detectedTotal := supported.length + unsupported.length
    if detectedTotal > deps.maxGroupLanguages then
      let message := buildLanguageLimitMessage deps.iface
        deps.maxGroupLanguages result.primary_language
      let store1 := store.setTranslationEnabled ev.group_id false
      (some (ReplyBundle.ofTexts [message.take 5000]), store1)
    else
      let lc := limitLanguageChoices deps.maxGroupLanguages supported
      let limitedSupported := lc.1
      let dropped := lc.2
      let messages0 : List ReplyMessage :=
        if !unsupported.isEmpty then
          [ReplyMessage.text (formatUnsupportedMessage deps.iface unsupported
            result.primary_language)]
        else []
      if !dropped.isEmpty then
        let notice := buildLanguageLimitMessage deps.iface
          deps.maxGroupLanguages result.primary_language
        let messages1 := messages0 ++ [ReplyMessage.text notice]
        let store1 := store.setTranslationEnabled ev.group_id false
        if !messages1.isEmpty then
          (some (ReplyBundle.ofMessages messages1), store1)
        else (none, store1)
      else if limitedSupported.isEmpty then
        (if !messages0.isEmpty then some (ReplyBundle.ofMessages messages0)
         else none, store)
      else
        let promptTexts := prepareLanguagePromptTexts deps.iface
          limitedSupported result
        let confirmData := encodePostbackPayload deps.codec langConfirmOps
          (confirmPayloadFor deps.iface deps.maxGroupLanguages limitedSupported
            promptTexts result.primary_language) 280
        let cancelData := encodePostbackPayload deps.codec langConfirmOps
          (cancelPayloadFor promptTexts) 280
        let templateMessage := ReplyMessage.confirmTemplate
          "Confirm interpretation languages".data promptTexts.confirm_text
          ("🆗 ".data ++ promptTexts.confirm_label) confirmData
          ("↩️ ".data ++ promptTexts.cancel_label) cancelData
        let messages1 := messages0 ++ [templateMessage]
        let store1 := (store.recordLanguagePrompt ev.group_id)
          |>.setTranslationEnabled ev.group_id false
        (some (ReplyBundle.ofMessages messages1), store1)

/-- `LanguageSettingsService.confirm` (language_settings_service.py, lines
99-120), state-passing over the `GroupStore`. -/
def LanguageSettingsService.confirm (deps : SettingsDeps) (store : GroupStore)
    (groupId : String) (languages : List (List Char × List Char))
    (primaryLanguage : List Char)
    (completionText limitText : Option (List Char)) :
    Option ReplyBundle × GroupStore :=
  let tuples := dedupLanguages languages
  if tuples.length > deps.maxGroupLanguages then
    let warning :=
      if optTruthy limitText then limitText.getD []
      else buildLanguageLimitMessage deps.iface deps.maxGroupLanguages
        primaryLanguage
    (some (ReplyBundle.ofTexts [warning]), store)
  else
    let tc := tryCompleteGroupLanguages deps.maxGroupLanguages store
      (some groupId) tuples
    if !tc.1 then (none, tc.2)
    else
      let store2 := tc.2.setTranslationEnabled (some groupId) true
      let baseText :=
        if optTruthy completionText then completionText.getD []
        else buildCompletionMessage tuples
      let text := buildMultilingualCompletionMessage deps.iface baseText tuples
      (some (ReplyBundle.ofTexts [text]), store2)

end TranslateBot

namespace TranslateBot

/- Concrete instantiations used by the witnesses below. -/

/-- Trivial datetime instantiation for witnesses. -/
def unitTimeEnv : TimeEnv Unit :=
  ⟨fun _ => "2025-01-01", fun u => u, "2025-01-01"⟩

/-- Unpaid store at usage 49 with no notice marker. -/
def storeAt49 : UsageStore := ⟨fun _ _ => 49, fun _ _ => none, 0⟩

/-- Unpaid store at usage 50 with no notice marker. -/
def storeAt50 : UsageStore := ⟨fun _ _ => 50, fun _ _ => none, 0⟩

/-- Unpaid store at usage 50 already notified for the free plan. -/
def storeNotified : UsageStore := ⟨fun _ _ => 50, fun _ _ => some "free", 0⟩

end TranslateBot

namespace TranslateBot

/-- Paid store at usage 0 for the flow witnesses. -/
def storeAt0 : UsageStore := ⟨fun _ _ => 0, fun _ _ => none, 0⟩

/-- A concrete message event for witnesses. -/
def witEvent : MessageEvent :=
  ⟨"message", some "token", some "group", some "user", "group", 0, "hi".data⟩

/-- Flow environment whose translation step always raises `RuntimeError`. -/
def flowWitEnvRaise : FlowEnv Unit :=
  { time := unitTimeEnv
    fromTimestampMs := fun _ => ()
    fetchRecent := fun _ _ => []
    translateAttempt := fun _ => .error (.runtimeError "boom") }

/-- Flow environment whose translation step returns zero results. -/
def flowWitEnvEmpty : FlowEnv Unit :=
  { time := unitTimeEnv
    fromTimestampMs := fun _ => ()
    fetchRecent := fun _ _ => []
    translateAttempt := fun _ => .ok [] }

end TranslateBot

namespace TranslateBot

/-- An empty group store for enrollment witnesses. -/
def emptyGroupStore : GroupStore :=
  ⟨fun _ => false, fun _ => false, fun _ => [], fun _ => none, fun _ => false,
    []⟩

/-- A concrete interface-translation environment whose port returns nothing. -/
def witIface : IfaceEnv := ⟨true, true, fun _ _ => []⟩

/-- A concrete codec environment for `LangConfirmPayload` witnesses. -/
def witCodecLang : CodecEnv LangConfirmPayload :=
  { jsonDumpsUtf8 := fun _ => []
    zlibCompress := fun bs => bs
    zlibDecompress := fun bs => some bs
    jsonLoadsUtf8 := fun _ => none }

/-- Settings dependencies for enrollment witnesses. -/
def witSettingsDeps : SettingsDeps :=
  { iface := witIface
    codec := witCodecLang
    analyze := fun _ => .ok none
    maxGroupLanguages := 5 }

/-- First delivered language list. -/
def witLangs1 : List (List Char × List Char) := [("EN".data, "English".data)]

/-- Second delivered language list. -/
def witLangs2 : List (List Char × List Char) := [("JA".data, "Japanese".data)]

end TranslateBot

namespace TranslateBot

/-- Preference with six supported languages (over a maximum of five). -/
def witPrefOver : LanguagePreference :=
  ⟨[⟨"en".data, "English".data⟩, ⟨"ja".data, "Japanese".data⟩,
    ⟨"th".data, "Thai".data⟩, ⟨"fr".data, "French".data⟩,
    ⟨"de".data, "German".data⟩, ⟨"es".data, "Spanish".data⟩], [],
    "OK".data, "Cancel".data, "en".data⟩

/-- Settings dependencies whose analyzer detects six languages. -/
def witOverDeps : SettingsDeps :=
  { iface := witIface
    codec := witCodecLang
    analyze := fun _ => .ok (some witPrefOver)
    maxGroupLanguages := 5 }

/-- Preference with one supported language. -/
def witPrefOne : LanguagePreference :=
  ⟨[⟨"en".data, "English".data⟩], [], "OK".data, "Cancel".data, "en".data⟩

/-- Settings dependencies whose analyzer detects one supported language. -/
def witOneDeps : SettingsDeps :=
  { iface := witIface
    codec := witCodecLang
    analyze := fun _ => .ok (some witPrefOne)
    maxGroupLanguages := 5 }

end TranslateBot

namespace TranslateBot

/-- A concrete codec environment over `Nat` payloads: serialisation is a
length-coded byte run, compression is the identity. -/
def witCodecNat : CodecEnv Nat :=
  { jsonDumpsUtf8 := fun n => List.replicate (n + 1) 65
    zlibCompress := fun bs => bs
    zlibDecompress := fun bs => some bs
    jsonLoadsUtf8 := fun bs => some (bs.length - 1) }

/-- Trivial dictionary operations for `Nat` payloads (no optional fields). -/
def natPayloadOps : PayloadOps Nat :=
  { hasTruthy := fun _ _ => false
    getText := fun _ _ => []
    setText := fun p _ _ => p
    hasKey := fun _ _ => false
    popKey := fun p _ => p }

end TranslateBot

namespace TranslateBot

/-- C5: for every unpaid tenant whose stored notified-plan marker differs from
the plan key, `evaluate` with increment 1 at stored usage `limit - 1` yields
usage = limit, allowed and should-notify (and the stored counter lands on the
limit); at stored usage at or above the limit it refuses with
stop-translation and leaves the store untouched (no increment). -/
theorem quota_threshold_behavior {DT : Type} (env : TimeEnv DT)
    (store : UsageStore) (g planKey : String) (limit : Int)
    (ps pe : Option DT)
    (hnotice : store.noticePlan g
      (QuotaService.computePeriodKey env false ps pe) ≠ some planKey) :
    (store.usage g (QuotaService.computePeriodKey env false ps pe) =
        limit - 1 →
      (QuotaService.evaluate env store g false limit ps pe planKey
        1).1.allowed = true ∧
      (QuotaService.evaluate env store g false limit ps pe planKey
        1).1.should_notify = true ∧
      (QuotaService.evaluate env store g false limit ps pe planKey
        1).1.usage = limit ∧
      (QuotaService.evaluate env store g false limit ps pe planKey
        1).2.usage g (QuotaService.computePeriodKey env false ps pe) =
        limit) ∧
    (store.usage g (QuotaService.computePeriodKey env false ps pe) ≥ limit →
      (QuotaService.evaluate env store g false limit ps pe planKey
        1).1.allowed = false ∧
      (QuotaService.evaluate env store g false limit ps pe planKey
        1).1.stop_translation = true ∧
      (QuotaService.evaluate env store g false limit ps pe planKey 1).2 =
        store) := by
  constructor
  · intro h49
    have hlt : ¬ store.usage g
        (QuotaService.computePeriodKey env false ps pe) ≥ limit := by omega
    simp only [QuotaService.evaluate, UsageStore.incrementUsage]
    rw [if_neg (fun h => hnotice h.2), if_neg hlt,
      if_neg Bool.false_ne_true,
      if_neg (by omega :
        ¬ store.usage g (QuotaService.computePeriodKey env false ps pe) + 1 >
          limit),
      if_pos (by omega :
        store.usage g (QuotaService.computePeriodKey env false ps pe) + 1 =
          limit)]
    refine ⟨rfl, decide_eq_true hnotice, ?_, ?_⟩
    · show store.usage g (QuotaService.computePeriodKey env false ps pe) + 1 =
        limit
      omega
    · show (if g = g ∧ QuotaService.computePeriodKey env false ps pe =
            QuotaService.computePeriodKey env false ps pe then
          store.usage g (QuotaService.computePeriodKey env false ps pe) + 1
        else store.usage g (QuotaService.computePeriodKey env false ps pe)) =
        limit
      rw [if_pos ⟨rfl, rfl⟩]
      omega
  · intro hge
    simp only [QuotaService.evaluate]
    rw [if_neg (fun h => hnotice h.2), if_pos hge]
    exact ⟨rfl, rfl, rfl⟩

/-- Witness for C5 at limit 50: usage 49 crosses to 50 with notification;
usage 50 refuses with stop-translation and no mutation. -/
theorem quota_threshold_behavior_witness :
    ((QuotaService.evaluate unitTimeEnv storeAt49 "g" false 50 none none
        "free" 1).1.allowed = true ∧
      (QuotaService.evaluate unitTimeEnv storeAt49 "g" false 50 none none
        "free" 1).1.should_notify = true ∧
      (QuotaService.evaluate unitTimeEnv storeAt49 "g" false 50 none none
        "free" 1).1.usage = 50 ∧
      (QuotaService.evaluate unitTimeEnv storeAt49 "g" false 50 none none
        "free" 1).2.usage "g"
        (QuotaService.computePeriodKey unitTimeEnv false none none) = 50) ∧
    ((QuotaService.evaluate unitTimeEnv storeAt50 "g" false 50 none none
        "free" 1).1.allowed = false ∧
      (QuotaService.evaluate unitTimeEnv storeAt50 "g" false 50 none none
        "free" 1).1.stop_translation = true ∧
      (QuotaService.evaluate unitTimeEnv storeAt50 "g" false 50 none none
        "free" 1).2 = storeAt50) :=
  ⟨(quota_threshold_behavior unitTimeEnv storeAt49 "g" "free" 50 none none
      (by decide)).1 (by decide),
    (quota_threshold_behavior unitTimeEnv storeAt50 "g" "free" 50 none none
      (by decide)).2 (by decide)⟩

/-- C6: for every unpaid `evaluate` call where the stored notified-plan marker
already equals the plan key, the decision is refuse / no notify / no
stop-translation with the current usage echoed, and the store is returned
unchanged (so `increment_usage` was never invoked: the usage counter, the
marker and the invocation count are all as before). -/
theorem quota_notified_short_circuit {DT : Type} (env : TimeEnv DT)
    (store : UsageStore) (g planKey : String) (limit : Int)
    (ps pe : Option DT) (inc : Int)
    (hnotice : store.noticePlan g
      (QuotaService.computePeriodKey env false ps pe) = some planKey) :
    QuotaService.evaluate env store g false limit ps pe planKey inc =
      (⟨false, false, false,
        store.usage g (QuotaService.computePeriodKey env false ps pe), limit,
        QuotaService.computePeriodKey env false ps pe, planKey⟩, store) := by
  simp only [QuotaService.evaluate]
  rw [if_pos ⟨by trivial, hnotice⟩]

/-- Witness for C6: already-notified free tenant at usage 50, limit 50. -/
theorem quota_notified_short_circuit_witness :
    QuotaService.evaluate unitTimeEnv storeNotified "g" false 50 none none
      "free" 1 =
      (⟨false, false, false,
        storeNotified.usage "g"
          (QuotaService.computePeriodKey unitTimeEnv false none none), 50,
        QuotaService.computePeriodKey unitTimeEnv false none none, "free"⟩,
        storeNotified) :=
  quota_notified_short_circuit unitTimeEnv storeNotified "g" "free" 50 none
    none 1 (by decide)

end TranslateBot

namespace TranslateBot

/-- Helper: a terminating retry loop with at least one remaining attempt makes
between 1 and `remaining` invocations and returns exactly the outcome of its
last invocation. -/
theorem retryLoop_spec {α : Type} (f : Nat → Except PyError α) :
    ∀ (remaining i : Nat) (le : Option PyError) (cnt : Nat), 1 ≤ remaining →
      ∃ k, 1 ≤ k ∧ k ≤ remaining ∧
        retryLoop f i remaining le cnt = (f (i + k - 1), cnt + k) := by
  intro remaining
  induction remaining with
  | zero => intro i le cnt h; omega
  | succ m ih =>
    intro i le cnt _
    cases hf : f i with
    | ok v =>
      refine ⟨1, le_refl 1, by omega, ?_⟩
      simp [retryLoop, hf]
    | error e =>
      cases m with
      | zero =>
        refine ⟨1, le_refl 1, by omega, ?_⟩
        simp [retryLoop, hf]
      | succ m2 =>
        obtain ⟨k, hk1, hk2, heq⟩ := ih (i + 1) (some e) (cnt + 1) (by omega)
        refine ⟨k + 1, by omega, by omega, ?_⟩
        rw [show retryLoop f i (m2 + 1 + 1) le cnt =
          retryLoop f (i + 1) (m2 + 1) (some e) (cnt + 1) from by
            simp [retryLoop, hf]]
        rw [heq]
        have h1 : i + 1 + k - 1 = i + (k + 1) - 1 := by omega
        have h2 : cnt + 1 + k = cnt + (k + 1) := by omega
        rw [h1, h2]

/-- Helper: when every invocation fails, the retry loop exhausts all remaining
attempts and re-raises the error of the last one. -/
theorem retryLoop_all_error {α : Type} (f : Nat → Except PyError α)
    (E : PyError) (hf : ∀ k, f k = .error E) :
    ∀ (remaining i : Nat) (le : Option PyError) (cnt : Nat), 1 ≤ remaining →
      retryLoop f i remaining le cnt = (.error E, cnt + remaining) := by
  intro remaining
  induction remaining with
  | zero => intro i le cnt h; omega
  | succ m ih =>
    intro i le cnt _
    cases m with
    | zero => simp [retryLoop, hf i]
    | succ m2 =>
      rw [show retryLoop f i (m2 + 1 + 1) le cnt =
        retryLoop f (i + 1) (m2 + 1) (some E) (cnt + 1) from by
          simp [retryLoop, hf i]]
      rw [ih (i + 1) (some E) (cnt + 1) (by omega)]
      have : cnt + 1 + (m2 + 1) = cnt + (m2 + 1 + 1) := by omega
      rw [this]

/-- C10: for every constructor argument `retries` (zero and negative included)
and every operation, `RetryPolicy.run` invokes the operation at least once and
at most `max 1 retries` times, and its result — returned value or raised
error — is exactly the outcome of the last invocation; consequently the
fallback branch raising `RuntimeError("RetryPolicy failed without capturing an
exception")` is never the source of the result. -/
theorem retry_policy_result_from_invocation {α : Type} (retriesRaw : Int)
    (f : Nat → Except PyError α) :
    ∃ k, 1 ≤ k ∧ k ≤ (max 1 retriesRaw).toNat ∧
      RetryPolicy.run ⟨retriesRaw⟩ f = (f (k - 1), k) := by
  have hpos : (1 : Int) ≤ max 1 retriesRaw := le_max_left 1 retriesRaw
  obtain ⟨k, h1, h2, heq⟩ :=
    retryLoop_spec f ((max 1 retriesRaw).toNat) 0 none 0 (by omega)
  refine ⟨k, h1, h2, ?_⟩
  show retryLoop f 0 ((max 1 retriesRaw).toNat) none 0 = (f (k - 1), k)
  simpa using heq

/-- C2 fails as stated: with two configured retries, an operation raising the
provider rate-limit error on every attempt is invoked twice by
`RetryPolicy.run`, not once. -/
theorem retry_rate_limit_retried_counterexample :
    RetryPolicy.run ⟨2⟩
        (fun _ =>
          (.error .geminiRateLimit : Except PyError (List TranslationResult))) =
      (.error .geminiRateLimit, 2) ∧
    (RetryPolicy.run ⟨2⟩
        (fun _ =>
          (.error .geminiRateLimit :
            Except PyError (List TranslationResult)))).2 ≠ 1 := by
  exact ⟨rfl, by decide⟩

/-- C2 amended: a rate-limit failure is retried like any other exception.
When every attempt raises `GeminiRateLimitError`,
`_invoke_translation_with_retry` (with a non-empty candidate list) invokes the
operation exactly `max(1, retries)` times and then re-raises the rate-limit
error unchanged to the caller. -/
theorem retry_rate_limit_exhausts_attempts (translationRetry : Int)
    (f : Nat → Except PyError (List TranslationResult))
    (cands : List (List Char)) (hc : cands ≠ [])
    (hf : ∀ k, f k = .error .geminiRateLimit) :
    invokeTranslationWithRetry translationRetry f cands =
      (.error .geminiRateLimit, (max 1 translationRetry).toNat) := by
  have hidem : max (1 : Int) (max 1 translationRetry) = max 1 translationRetry :=
    max_eq_right (le_max_left 1 translationRetry)
  have hpos : (1 : Int) ≤ max 1 translationRetry := le_max_left 1 translationRetry
  have hempty : cands.isEmpty = false := by
    cases cands with
    | nil => exact absurd rfl hc
    | cons a l => rfl
  rw [invokeTranslationWithRetry, hempty]
  show RetryPolicy.run ⟨max 1 translationRetry⟩ f =
    (.error .geminiRateLimit, (max 1 translationRetry).toNat)
  rw [RetryPolicy.run, RetryPolicy.retries]
  show retryLoop f 0 (max 1 (max 1 translationRetry)).toNat none 0 =
    (.error .geminiRateLimit, (max 1 translationRetry).toNat)
  rw [hidem, retryLoop_all_error f .geminiRateLimit hf
    ((max 1 translationRetry).toNat) 0 none 0 (by omega)]
  rw [Nat.zero_add]

/-- Witness for the amended C2: three retries, every attempt rate-limited,
candidate list non-empty: three invocations and the rate-limit error. -/
theorem retry_rate_limit_exhausts_attempts_witness :
    invokeTranslationWithRetry 3
        (fun _ =>
          (.error .geminiRateLimit : Except PyError (List TranslationResult)))
        ["en".data] =
      (.error .geminiRateLimit, 3) := by
  have h := retry_rate_limit_exhausts_attempts 3
    (fun _ =>
      (.error .geminiRateLimit : Except PyError (List TranslationResult)))
    ["en".data] (by simp) (fun _ => rfl)
  simpa using h

end TranslateBot

namespace TranslateBot

/-- Helper: an allowed decision always comes out of an `increment_usage`
branch, so the decision carries the computed period key and the stored counter
for (group, period key) has grown by exactly the increment. -/
theorem evaluate_allowed_usage {DT : Type} (env : TimeEnv DT)
    (store : UsageStore) (g : String) (paid : Bool) (limit : Int)
    (ps pe : Option DT) (planKey : String) (inc : Int)
    (hallowed : (QuotaService.evaluate env store g paid limit ps pe planKey
      inc).1.allowed = true) :
    (QuotaService.evaluate env store g paid limit ps pe planKey
        inc).1.period_key = QuotaService.computePeriodKey env paid ps pe ∧
    (QuotaService.evaluate env store g paid limit ps pe planKey inc).2.usage g
        (QuotaService.computePeriodKey env paid ps pe) =
      store.usage g (QuotaService.computePeriodKey env paid ps pe) + inc := by
  simp only [QuotaService.evaluate, UsageStore.incrementUsage] at hallowed ⊢
  split_ifs at hallowed ⊢ <;> simp_all

end TranslateBot

namespace TranslateBot

/-- C1: in a `run` call whose quota decision is allowed (so the usage counter
was incremented by exactly 1), a raising translation step makes `run` re-raise
the same exception after decrementing the counter by that exact increment, and
a zero-result translation step triggers the same decrement while `run` returns
a null reply text; in both cases the counter for the (tenant, period key) ends
at its value before the call. -/
theorem flow_rollback_restores_usage {DT : Type} (env : FlowEnv DT)
    (store : UsageStore) (translationRetry : Int) (maxContext : Nat)
    (ev : MessageEvent) (cands : List (List Char)) (paid : Bool) (limit : Int)
    (planKey : String) (ps pe : Option DT)
    (hallowed : (QuotaService.evaluate env.time store (ev.group_id.getD "")
      paid limit ps pe planKey 1).1.allowed = true) :
    ((QuotaService.evaluate env.time store (ev.group_id.getD "") paid limit
        ps pe planKey 1).2.usage (ev.group_id.getD "")
        (QuotaService.computePeriodKey env.time paid ps pe) =
      store.usage (ev.group_id.getD "")
        (QuotaService.computePeriodKey env.time paid ps pe) + 1) ∧
    (∀ e, (invokeTranslationWithRetry translationRetry env.translateAttempt
        cands).1 = .error e →
      (TranslationFlowService.run env store translationRetry maxContext ev
          cands paid limit planKey ps pe).1 = .error e ∧
      (TranslationFlowService.run env store translationRetry maxContext ev
          cands paid limit planKey ps pe).2.usage (ev.group_id.getD "")
          (QuotaService.computePeriodKey env.time paid ps pe) =
        store.usage (ev.group_id.getD "")
          (QuotaService.computePeriodKey env.time paid ps pe)) ∧
    ((invokeTranslationWithRetry translationRetry env.translateAttempt
        cands).1 = .ok [] →
      (TranslationFlowService.run env store translationRetry maxContext ev
          cands paid limit planKey ps pe).1 =
        .ok ⟨(QuotaService.evaluate env.time store (ev.group_id.getD "") paid
          limit ps pe planKey 1).1, none⟩ ∧
      (TranslationFlowService.run env store translationRetry maxContext ev
          cands paid limit planKey ps pe).2.usage (ev.group_id.getD "")
          (QuotaService.computePeriodKey env.time paid ps pe) =
        store.usage (ev.group_id.getD "")
          (QuotaService.computePeriodKey env.time paid ps pe)) := by
  obtain ⟨hpk, hinc⟩ := evaluate_allowed_usage env.time store
    (ev.group_id.getD "") paid limit ps pe planKey 1 hallowed
  have hroll : (rollbackUsage
      (QuotaService.evaluate env.time store (ev.group_id.getD "") paid limit
        ps pe planKey 1).2 (ev.group_id.getD "")
      (QuotaService.evaluate env.time store (ev.group_id.getD "") paid limit
        ps pe planKey 1).1.period_key 1).usage (ev.group_id.getD "")
      (QuotaService.computePeriodKey env.time paid ps pe) =
      store.usage (ev.group_id.getD "")
        (QuotaService.computePeriodKey env.time paid ps pe) := by
    simp only [rollbackUsage, QuotaService.rollback]
    rw [if_neg (by norm_num : ¬ (1 : Int) ≤ 0)]
    show (if (ev.group_id.getD "") = (ev.group_id.getD "") ∧
          QuotaService.computePeriodKey env.time paid ps pe =
            (QuotaService.evaluate env.time store (ev.group_id.getD "") paid
              limit ps pe planKey 1).1.period_key then
        (QuotaService.evaluate env.time store (ev.group_id.getD "") paid limit
          ps pe planKey 1).2.usage (ev.group_id.getD "")
          (QuotaService.computePeriodKey env.time paid ps pe) - 1
      else
        (QuotaService.evaluate env.time store (ev.group_id.getD "") paid limit
          ps pe planKey 1).2.usage (ev.group_id.getD "")
          (QuotaService.computePeriodKey env.time paid ps pe)) =
      store.usage (ev.group_id.getD "")
        (QuotaService.computePeriodKey env.time paid ps pe)
    rw [if_pos ⟨rfl, hpk.symm⟩]
    omega
  refine ⟨hinc, fun e hinv => ?_, fun hinv => ?_⟩
  · have hrun : TranslationFlowService.run env store translationRetry
        maxContext ev cands paid limit planKey ps pe =
        (.error e, rollbackUsage
          (QuotaService.evaluate env.time store (ev.group_id.getD "") paid
            limit ps pe planKey 1).2 (ev.group_id.getD "")
          (QuotaService.evaluate env.time store (ev.group_id.getD "") paid
            limit ps pe planKey 1).1.period_key 1) := by
      simp only [TranslationFlowService.run, hallowed, hinv, Bool.not_true,
        Bool.false_eq_true, if_false]
    rw [hrun]
    exact ⟨rfl, hroll⟩
  · have hrun : TranslationFlowService.run env store translationRetry
        maxContext ev cands paid limit planKey ps pe =
        (.ok ⟨(QuotaService.evaluate env.time store (ev.group_id.getD "") paid
          limit ps pe planKey 1).1, none⟩, rollbackUsage
          (QuotaService.evaluate env.time store (ev.group_id.getD "") paid
            limit ps pe planKey 1).2 (ev.group_id.getD "")
          (QuotaService.evaluate env.time store (ev.group_id.getD "") paid
            limit ps pe planKey 1).1.period_key 1) := by
      simp only [TranslationFlowService.run, hallowed, hinv, Bool.not_true,
        Bool.false_eq_true, if_false, List.isEmpty_nil, if_true]
    rw [hrun]
    exact ⟨rfl, hroll⟩

end TranslateBot

namespace TranslateBot

/-- Witness for C1: paid tenant, limit 5, counter at 0. A raising translation
re-raises `RuntimeError("boom")` and the counter is back at 0; a zero-result
translation returns a null reply and the counter is back at 0. -/
theorem flow_rollback_restores_usage_witness :
    ((TranslationFlowService.run flowWitEnvRaise storeAt0 1 1 witEvent
        ["en".data] true 5 "pro" none none).1 =
        .error (.runtimeError "boom") ∧
      (TranslationFlowService.run flowWitEnvRaise storeAt0 1 1 witEvent
        ["en".data] true 5 "pro" none none).2.usage "group"
        (QuotaService.computePeriodKey unitTimeEnv true none none) = 0) ∧
    ((TranslationFlowService.run flowWitEnvEmpty storeAt0 1 1 witEvent
        ["en".data] true 5 "pro" none none).1 =
        .ok ⟨(QuotaService.evaluate unitTimeEnv storeAt0 "group" true 5 none
          none "pro" 1).1, none⟩ ∧
      (TranslationFlowService.run flowWitEnvEmpty storeAt0 1 1 witEvent
        ["en".data] true 5 "pro" none none).2.usage "group"
        (QuotaService.computePeriodKey unitTimeEnv true none none) = 0) :=
  ⟨(flow_rollback_restores_usage flowWitEnvRaise storeAt0 1 1 witEvent
      ["en".data] true 5 "pro" none none rfl).2.1
      (.runtimeError "boom") rfl,
    (flow_rollback_restores_usage flowWitEnvEmpty storeAt0 1 1 witEvent
      ["en".data] true 5 "pro" none none rfl).2.2 rfl⟩

end TranslateBot

namespace TranslateBot

/-- Helper: with the completion gate open, `try_complete_group_languages`
reports completed, stamps the gate, persists the normalized capped language
set, and leaves the translation-enabled setting alone. -/
theorem tryComplete_gate_open (m : Nat) (s : GroupStore) (g : Option String)
    (L : List (List Char × List Char)) (hopen : s.completedAt g = false) :
    (tryCompleteGroupLanguages m s g L).1 = true ∧
    (tryCompleteGroupLanguages m s g L).2.completedAt g = true ∧
    (tryCompleteGroupLanguages m s g L).2.memberRow g = true ∧
    (tryCompleteGroupLanguages m s g L).2.groupLanguages g =
      (normalizeLanguages L []).take m ∧
    (tryCompleteGroupLanguages m s g L).2.translationEnabled =
      s.translationEnabled := by
  by_cases hrow : s.memberRow g = true
  · simp [tryCompleteGroupLanguages, GroupStore.insertMarkerRowIfAbsent,
      hopen, hrow]
  · simp [tryCompleteGroupLanguages, GroupStore.insertMarkerRowIfAbsent,
      hopen, hrow]

/-- Helper: with the completion gate already stamped and the marker row
present, `try_complete_group_languages` reports "not completed" and performs
no mutation at all. -/
theorem tryComplete_gate_closed (m : Nat) (s : GroupStore) (g : Option String)
    (L : List (List Char × List Char)) (hdone : s.completedAt g = true)
    (hrow : s.memberRow g = true) :
    tryCompleteGroupLanguages m s g L = (false, s) := by
  simp [tryCompleteGroupLanguages, GroupStore.insertMarkerRowIfAbsent, hdone,
    hrow]

/-- C7: two confirm deliveries for the same tenant (language lists within the
maximum, gate initially open): the completion write succeeds exactly once (the
first `try_complete` reports completed, the second reports already-completed),
exactly one language set is persisted (the first delivery's normalized list,
with translation enabled), and the second delivery returns nothing and
mutates no state at all. -/
theorem confirm_completion_idempotent (deps : SettingsDeps) (s0 : GroupStore)
    (g : String) (l1 l2 : List (List Char × List Char)) (p1 p2 : List Char)
    (ct1 ct2 lt1 lt2 : Option (List Char))
    (hopen : s0.completedAt (some g) = false)
    (h1 : (dedupLanguages l1).length ≤ deps.maxGroupLanguages)
    (h2 : (dedupLanguages l2).length ≤ deps.maxGroupLanguages) :
    (tryCompleteGroupLanguages deps.maxGroupLanguages s0 (some g)
        (dedupLanguages l1)).1 = true ∧
    (LanguageSettingsService.confirm deps s0 g l1 p1 ct1 lt1).1 ≠ none ∧
    (LanguageSettingsService.confirm deps s0 g l1 p1 ct1 lt1).2.groupLanguages
        (some g) =
      (normalizeLanguages (dedupLanguages l1) []).take
        deps.maxGroupLanguages ∧
    (LanguageSettingsService.confirm deps s0 g l1 p1 ct1
        lt1).2.translationEnabled (some g) = some true ∧
    (tryCompleteGroupLanguages deps.maxGroupLanguages
        (LanguageSettingsService.confirm deps s0 g l1 p1 ct1 lt1).2 (some g)
        (dedupLanguages l2)).1 = false ∧
    LanguageSettingsService.confirm deps
        (LanguageSettingsService.confirm deps s0 g l1 p1 ct1 lt1).2 g l2 p2
        ct2 lt2 =
      (none, (LanguageSettingsService.confirm deps s0 g l1 p1 ct1 lt1).2) := by
  obtain ⟨ht1, hdone1, hrow1, hlangs1, henab1⟩ := tryComplete_gate_open
    deps.maxGroupLanguages s0 (some g) (dedupLanguages l1) hopen
  have hc1 : LanguageSettingsService.confirm deps s0 g l1 p1 ct1 lt1 =
      (some (ReplyBundle.ofTexts [buildMultilingualCompletionMessage deps.iface
          (if optTruthy ct1 = true then ct1.getD []
           else buildCompletionMessage (dedupLanguages l1))
          (dedupLanguages l1)]),
        (tryCompleteGroupLanguages deps.maxGroupLanguages s0 (some g)
          (dedupLanguages l1)).2.setTranslationEnabled (some g) true) := by
    simp only [LanguageSettingsService.confirm]
    rw [if_neg (by omega :
      ¬ (dedupLanguages l1).length > deps.maxGroupLanguages)]
    rw [ht1]
    simp
  have hdone2 : (LanguageSettingsService.confirm deps s0 g l1 p1 ct1
      lt1).2.completedAt (some g) = true := by
    rw [hc1]; exact hdone1
  have hrow2 : (LanguageSettingsService.confirm deps s0 g l1 p1 ct1
      lt1).2.memberRow (some g) = true := by
    rw [hc1]; exact hrow1
  have hclosed := tryComplete_gate_closed deps.maxGroupLanguages
    (LanguageSettingsService.confirm deps s0 g l1 p1 ct1 lt1).2 (some g)
    (dedupLanguages l2) hdone2 hrow2
  refine ⟨ht1, ?_, ?_, ?_, ?_, ?_⟩
  · rw [hc1]; simp
  · rw [hc1]
    show (tryCompleteGroupLanguages deps.maxGroupLanguages s0 (some g)
      (dedupLanguages l1)).2.groupLanguages (some g) =
      (normalizeLanguages (dedupLanguages l1) []).take deps.maxGroupLanguages
    exact hlangs1
  · rw [hc1]
    show (if (some g : Option String) = some g then some true
      else (tryCompleteGroupLanguages deps.maxGroupLanguages s0 (some g)
        (dedupLanguages l1)).2.translationEnabled (some g)) = some true
    rw [if_pos rfl]
  · rw [hclosed]
  · revert hdone2 hrow2 hclosed
    generalize (LanguageSettingsService.confirm deps s0 g l1 p1 ct1 lt1).2 = s1
    intro hdone2 hrow2 hclosed
    simp only [LanguageSettingsService.confirm]
    rw [if_neg (by omega :
      ¬ (dedupLanguages l2).length > deps.maxGroupLanguages)]
    rw [hclosed]
    simp

end TranslateBot

namespace TranslateBot

/-- Witness for C7: two confirm deliveries with different language lists on a
fresh tenant; the first completes and persists, the second returns nothing and
leaves the state exactly as after the first. -/
theorem confirm_completion_idempotent_witness :
    (tryCompleteGroupLanguages 5 emptyGroupStore (some "group")
        (dedupLanguages witLangs1)).1 = true ∧
    (LanguageSettingsService.confirm witSettingsDeps emptyGroupStore "group"
        witLangs1 [] none none).1 ≠ none ∧
    (LanguageSettingsService.confirm witSettingsDeps emptyGroupStore "group"
        witLangs1 [] none none).2.groupLanguages (some "group") =
      (normalizeLanguages (dedupLanguages witLangs1) []).take 5 ∧
    (LanguageSettingsService.confirm witSettingsDeps emptyGroupStore "group"
        witLangs1 [] none none).2.translationEnabled (some "group") =
      some true ∧
    (tryCompleteGroupLanguages 5
        (LanguageSettingsService.confirm witSettingsDeps emptyGroupStore
          "group" witLangs1 [] none none).2 (some "group")
        (dedupLanguages witLangs2)).1 = false ∧
    LanguageSettingsService.confirm witSettingsDeps
        (LanguageSettingsService.confirm witSettingsDeps emptyGroupStore
          "group" witLangs1 [] none none).2 "group" witLangs2 [] none none =
      (none, (LanguageSettingsService.confirm witSettingsDeps emptyGroupStore
        "group" witLangs1 [] none none).2) :=
  confirm_completion_idempotent witSettingsDeps emptyGroupStore "group"
    witLangs1 witLangs2 [] [] none none none none rfl (by decide) (by decide)

end TranslateBot

namespace TranslateBot

/-- C8: when the analyzer succeeds and the total number of detected languages
(supported plus unsupported) exceeds the configured maximum, `propose` returns
exactly one plain limit-message text (no template, no tokens: the bundle's
message list is empty) and its only state change is setting the tenant's
translation-enabled flag to false (in particular no prompt is recorded). -/
theorem propose_limit_refusal (deps : SettingsDeps) (store : GroupStore)
    (ev : MessageEvent) (pref : LanguagePreference)
    (hanalyze : deps.analyze ev.text = .ok (some pref))
    (hover : pref.supported.length + pref.unsupported.length >
      deps.maxGroupLanguages) :
    LanguageSettingsService.propose deps store ev =
      (some (ReplyBundle.ofTexts [(buildLanguageLimitMessage deps.iface
          deps.maxGroupLanguages pref.primary_language).take 5000]),
        store.setTranslationEnabled ev.group_id false) := by
  simp only [LanguageSettingsService.propose, hanalyze]
  rw [if_pos hover]

end TranslateBot

namespace TranslateBot

/-- Witness for C8: six detected languages against a maximum of five. -/
theorem propose_limit_refusal_witness :
    LanguageSettingsService.propose witOverDeps emptyGroupStore witEvent =
      (some (ReplyBundle.ofTexts [(buildLanguageLimitMessage
          witOverDeps.iface 5 "en".data).take 5000]),
        emptyGroupStore.setTranslationEnabled witEvent.group_id false) :=
  propose_limit_refusal witOverDeps emptyGroupStore witEvent witPrefOver rfl
    (by decide)

end TranslateBot

namespace TranslateBot

/-- Helper: when the room left in `limited` covers the remaining input, the
capping loop never drops anything. -/
theorem limitChoicesGo_no_dropped (m : Nat) :
    ∀ (ls : List LanguageChoice) (seen : List (List Char))
      (limited : List LanguageChoice),
      limited.length + ls.length ≤ m →
      (limitChoicesGo m seen limited [] ls).2 = [] := by
  intro ls
  induction ls with
  | nil => intro seen limited _; rfl
  | cons x rest ih =>
    intro seen limited h
    simp only [List.length_cons] at h
    simp only [limitChoicesGo]
    split_ifs with hskip hlt
    · exact ih seen limited (by omega)
    · exact ih _ _ (by simp; omega)
    · exact absurd (by omega : limited.length < m) hlt

/-- Helper: a supported list within the maximum is never capped. -/
theorem limitLanguageChoices_no_dropped (m : Nat)
    (ls : List LanguageChoice) (h : ls.length ≤ m) :
    (limitLanguageChoices m ls).2 = [] :=
  limitChoicesGo_no_dropped m ls [] [] (by simpa using h)

/-- C9: when the analyzer succeeds, the detected total is within the
configured maximum and at least one supported language remains after capping,
`propose` returns a bundle ending in the confirm template (a confirm postback
token encoding the confirm payload, which carries the finalized capped
language list, and a separate cancel postback token encoding the cancel
payload), records the language prompt, and sets the translation-enabled flag
to false. -/
theorem propose_renders_confirmation_prompt (deps : SettingsDeps)
    (store : GroupStore) (ev : MessageEvent) (pref : LanguagePreference)
    (hanalyze : deps.analyze ev.text = .ok (some pref))
    (htotal : pref.supported.length + pref.unsupported.length ≤
      deps.maxGroupLanguages)
    (hsome : (limitLanguageChoices deps.maxGroupLanguages pref.supported).1 ≠
      []) :
    ∃ pre,
      LanguageSettingsService.propose deps store ev =
        (some (ReplyBundle.ofMessages (pre ++ [ReplyMessage.confirmTemplate
          "Confirm interpretation languages".data
          (prepareLanguagePromptTexts deps.iface
            (limitLanguageChoices deps.maxGroupLanguages pref.supported).1
            pref).confirm_text
          ("🆗 ".data ++ (prepareLanguagePromptTexts deps.iface
            (limitLanguageChoices deps.maxGroupLanguages pref.supported).1
            pref).confirm_label)
          (encodePostbackPayload deps.codec langConfirmOps
            (confirmPayloadFor deps.iface deps.maxGroupLanguages
              (limitLanguageChoices deps.maxGroupLanguages pref.supported).1
              (prepareLanguagePromptTexts deps.iface
                (limitLanguageChoices deps.maxGroupLanguages
                  pref.supported).1 pref)
              pref.primary_language) 280)
          ("↩️ ".data ++ (prepareLanguagePromptTexts deps.iface
            (limitLanguageChoices deps.maxGroupLanguages pref.supported).1
            pref).cancel_label)
          (encodePostbackPayload deps.codec langConfirmOps
            (cancelPayloadFor (prepareLanguagePromptTexts deps.iface
              (limitLanguageChoices deps.maxGroupLanguages pref.supported).1
              pref)) 280)])),
        (store.recordLanguagePrompt ev.group_id).setTranslationEnabled
          ev.group_id false) := by
  have hsup : pref.supported.length ≤ deps.maxGroupLanguages := by omega
  have hdrop := limitLanguageChoices_no_dropped deps.maxGroupLanguages
    pref.supported hsup
  have hne : (limitLanguageChoices deps.maxGroupLanguages
      pref.supported).1.isEmpty = false := by
    cases hl : (limitLanguageChoices deps.maxGroupLanguages pref.supported).1
    · exact absurd hl hsome
    · rfl
  refine ⟨if !pref.unsupported.isEmpty then
    [ReplyMessage.text (formatUnsupportedMessage deps.iface pref.unsupported
      pref.primary_language)] else [], ?_⟩
  simp only [LanguageSettingsService.propose, hanalyze]
  rw [if_neg (by omega :
    ¬ pref.supported.length + pref.unsupported.length >
      deps.maxGroupLanguages)]
  rw [hdrop, hne]
  simp

end TranslateBot

namespace TranslateBot

/-- Witness for C9: a single supported language under a maximum of five
produces the confirm template, the prompt record and the disabled flag. -/
theorem propose_renders_confirmation_prompt_witness :
    ∃ pre,
      LanguageSettingsService.propose witOneDeps emptyGroupStore witEvent =
        (some (ReplyBundle.ofMessages (pre ++ [ReplyMessage.confirmTemplate
          "Confirm interpretation languages".data
          (prepareLanguagePromptTexts witOneDeps.iface
            (limitLanguageChoices witOneDeps.maxGroupLanguages
              witPrefOne.supported).1 witPrefOne).confirm_text
          ("🆗 ".data ++ (prepareLanguagePromptTexts witOneDeps.iface
            (limitLanguageChoices witOneDeps.maxGroupLanguages
              witPrefOne.supported).1 witPrefOne).confirm_label)
          (encodePostbackPayload witOneDeps.codec langConfirmOps
            (confirmPayloadFor witOneDeps.iface witOneDeps.maxGroupLanguages
              (limitLanguageChoices witOneDeps.maxGroupLanguages
                witPrefOne.supported).1
              (prepareLanguagePromptTexts witOneDeps.iface
                (limitLanguageChoices witOneDeps.maxGroupLanguages
                  witPrefOne.supported).1 witPrefOne)
              witPrefOne.primary_language) 280)
          ("↩️ ".data ++ (prepareLanguagePromptTexts witOneDeps.iface
            (limitLanguageChoices witOneDeps.maxGroupLanguages
              witPrefOne.supported).1 witPrefOne).cancel_label)
          (encodePostbackPayload witOneDeps.codec langConfirmOps
            (cancelPayloadFor (prepareLanguagePromptTexts witOneDeps.iface
              (limitLanguageChoices witOneDeps.maxGroupLanguages
                witPrefOne.supported).1 witPrefOne)) 280)])),
        (emptyGroupStore.recordLanguagePrompt
          witEvent.group_id).setTranslationEnabled witEvent.group_id false) :=
  propose_renders_confirmation_prompt witOneDeps emptyGroupStore witEvent
    witPrefOne rfl (by decide) (by decide)

end TranslateBot

namespace TranslateBot

/-- Helper: the base64url index character is always in the alphabet. -/
theorem b64Idx_mem (n : Nat) : b64Idx n ∈ b64Alphabet := by
  have hlt : n % 64 < 64 := Nat.mod_lt n (by norm_num)
  have hall : ∀ m, m < 64 → b64Alphabet.getD m 'A' ∈ b64Alphabet := by decide
  have := hall (n % 64) hlt
  simpa [b64Idx] using this

/-- Helper: every character of a base64url encoding is an alphabet character
or the padding character. -/
theorem mem_b64Encode :
    ∀ (bs : List Nat), ∀ c ∈ b64Encode bs, c ∈ b64Alphabet ∨ c = '='
  | [] => by intro c hc; simp [b64Encode] at hc
  | [b1] => by
    intro c hc
    simp only [b64Encode, List.mem_cons, List.not_mem_nil, or_false] at hc
    rcases hc with h | h | h | h
    · exact Or.inl (h ▸ b64Idx_mem _)
    · exact Or.inl (h ▸ b64Idx_mem _)
    · exact Or.inr h
    · exact Or.inr h
  | [b1, b2] => by
    intro c hc
    simp only [b64Encode, List.mem_cons, List.not_mem_nil, or_false] at hc
    rcases hc with h | h | h | h
    · exact Or.inl (h ▸ b64Idx_mem _)
    · exact Or.inl (h ▸ b64Idx_mem _)
    · exact Or.inl (h ▸ b64Idx_mem _)
    · exact Or.inr h
  | b1 :: b2 :: b3 :: rest => by
    intro c hc
    simp only [b64Encode, List.mem_cons] at hc
    rcases hc with h | h | h | h | h
    · exact Or.inl (h ▸ b64Idx_mem _)
    · exact Or.inl (h ▸ b64Idx_mem _)
    · exact Or.inl (h ▸ b64Idx_mem _)
    · exact Or.inl (h ▸ b64Idx_mem _)
    · exact mem_b64Encode rest c h

/-- Helper: ASCII content makes the UTF-8 length equal the character count. -/
theorem utf8Len_eq_length (l : List Char) (h : ∀ c ∈ l, c.utf8Size = 1) :
    utf8Len l = l.length := by
  induction l with
  | nil => rfl
  | cons x xs ih =>
    have hx := h x (List.mem_cons_self x xs)
    have hxs := ih (fun c hc => h c (List.mem_cons_of_mem x hc))
    simp only [utf8Len, List.map_cons, List.sum_cons, List.length_cons] at *
    omega

/-- Helper: stripping trailing padding keeps a sublist. -/
theorem mem_pyRstripEq (l : List Char) (c : Char) (hc : c ∈ pyRstripEq l) :
    c ∈ l := by
  rw [pyRstripEq, List.mem_reverse] at hc
  rw [show l = l.reverse.reverse from (List.reverse_reverse l).symm,
    List.mem_reverse]
  exact (List.dropWhile_sublist _).mem hc

/-- Helper: the base64url alphabet is ASCII. -/
theorem b64Alphabet_ascii : ∀ c ∈ b64Alphabet, c.utf8Size = 1 := by decide

/-- Helper: the scheme tag is ASCII. -/
theorem schemeTag_ascii : ∀ c ∈ "langpref2=".data, c.utf8Size = 1 := by
  decide

/-- Helper: every character of an encoder token is one-byte UTF-8. -/
theorem encodeToken_ascii {P : Type} (env : CodecEnv P) (p : P) :
    ∀ c ∈ encodeToken env p, c.utf8Size = 1 := by
  intro c hc
  simp only [encodeToken, List.mem_append] at hc
  rcases hc with h | h
  · exact schemeTag_ascii c h
  · have h2 := mem_pyRstripEq _ c h
    rcases mem_b64Encode _ c h2 with ha | he
    · exact b64Alphabet_ascii c ha
    · rw [he]
      decide

/-- Helper: an ASCII-checked truncation respects the byte budget. -/
theorem utf8Len_encodeToken_take {P : Type} (env : CodecEnv P) (p : P)
    (n : Nat) : utf8Len ((encodeToken env p).take n) ≤ n := by
  have hascii : ∀ c ∈ (encodeToken env p).take n, c.utf8Size = 1 :=
    fun c hc => encodeToken_ascii env p c (List.take_subset n _ hc)
  rw [utf8Len_eq_length _ hascii]
  exact List.length_take_le n _

end TranslateBot

namespace TranslateBot

/-- Helper: an early return out of the shrink rounds is always a token that
passed the byte check. -/
theorem shrinkRounds_error_fits {P : Type} (env : CodecEnv P)
    (ops : PayloadOps P) (maxBytes : Nat) (key : String) :
    ∀ (fuel : Nat) (payload : P) (encoded : List Char),
      shrinkRounds env ops maxBytes key fuel payload = .error encoded →
      utf8Len encoded ≤ maxBytes := by
  intro fuel
  induction fuel with
  | zero => intro payload encoded h; exact absurd h (by simp [shrinkRounds])
  | succ n ih =>
    intro payload encoded h
    simp only [shrinkRounds] at h
    by_cases hfit :
        utf8Len (encodeToken env (shrinkText ops payload key).2) ≤ maxBytes
    · rw [if_pos hfit] at h
      cases h
      exact hfit
    · rw [if_neg hfit] at h
      by_cases hch : (!(shrinkText ops payload key).1) = true
      · rw [if_pos hch] at h
        cases h
      · rw [if_neg hch] at h
        exact ih _ _ h

/-- Helper: an early return out of one key's shrink-and-pop step passed the
byte check. -/
theorem shrinkKeyStep_error_fits {P : Type} (env : CodecEnv P)
    (ops : PayloadOps P) (maxBytes : Nat) (payload : P) (key : String)
    (encoded : List Char)
    (h : shrinkKeyStep env ops maxBytes payload key = .error encoded) :
    utf8Len encoded ≤ maxBytes := by
  simp only [shrinkKeyStep] at h
  cases hr : shrinkRounds env ops maxBytes key 3 payload with
  | error enc =>
    simp only [hr] at h
    cases h
    exact shrinkRounds_error_fits env ops maxBytes key 3 payload _ hr
  | ok payload1 =>
    simp only [hr] at h
    split_ifs at h with hk hfit; cases h
    exact hfit

/-- Helper: an early return out of the key loop passed the byte check. -/
theorem shrinkKeys_error_fits {P : Type} (env : CodecEnv P)
    (ops : PayloadOps P) (maxBytes : Nat) :
    ∀ (keys : List String) (payload : P) (encoded : List Char),
      shrinkKeys env ops maxBytes keys payload = .error encoded →
      utf8Len encoded ≤ maxBytes := by
  intro keys
  induction keys with
  | nil => intro payload encoded h; exact absurd h (by simp [shrinkKeys])
  | cons key rest ih =>
    intro payload encoded h
    simp only [shrinkKeys] at h
    cases hs : shrinkKeyStep env ops maxBytes payload key with
    | error enc =>
      simp only [hs] at h
      cases h
      exact shrinkKeyStep_error_fits env ops maxBytes payload key _ hs
    | ok payload1 =>
      simp only [hs] at h
      exact ih payload1 encoded h

/-- Helper: the byte bound for any ceiling. -/
theorem encodePostbackPayload_le {P : Type} (env : CodecEnv P)
    (ops : PayloadOps P) (payload : P) (maxBytes : Nat) :
    utf8Len (encodePostbackPayload env ops payload maxBytes) ≤ maxBytes := by
  simp only [encodePostbackPayload]
  split_ifs with hfit
  · exact hfit
  · cases hk : shrinkKeys env ops maxBytes
        ["limit_text", "cancel_text", "completion_text"] payload with
    | error enc =>
      simp only [hk]
      exact shrinkKeys_error_fits env ops maxBytes _ payload enc hk
    | ok payload1 =>
      simp only [hk]
      exact utf8Len_encodeToken_take env payload1 maxBytes

/-- C3: for every payload (any payload type, any serialisation and compression
collaborators, pathologically long optional text fields included), the string
returned by `_encode_postback_payload` with the default 280-byte ceiling is at
most 280 bytes when UTF-8 encoded: every early return is guarded by the byte
check and the final fallback hard-truncates an all-ASCII token. -/
theorem encode_postback_payload_byte_bound {P : Type} (env : CodecEnv P)
    (ops : PayloadOps P) (payload : P) :
    utf8Len (encodePostbackPayload env ops payload 280) ≤ 280 :=
  encodePostbackPayload_le env ops payload 280

end TranslateBot

namespace TranslateBot

/-- Helper: looking an index character back up recovers the 6-bit value. -/
theorem b64CharVal_idx (n : Nat) : b64CharVal (b64Idx n) = some (n % 64) := by
  have hlt : n % 64 < 64 := Nat.mod_lt n (by norm_num)
  have hall : ∀ m, m < 64 →
      b64CharVal (b64Alphabet.getD m 'A') = some m := by decide
  simpa [b64Idx] using hall (n % 64) hlt

/-- Helper: an index character is never the padding character. -/
theorem b64Idx_ne_pad (n : Nat) : b64Idx n ≠ '=' := by
  have hlt : n % 64 < 64 := Nat.mod_lt n (by norm_num)
  have hall : ∀ m, m < 64 → b64Alphabet.getD m 'A' ≠ '=' := by decide
  simpa [b64Idx] using hall (n % 64) hlt

/-- Helper: decoding inverts encoding on byte lists. -/
theorem b64_roundtrip :
    ∀ (bs : List Nat), (∀ b ∈ bs, b < 256) →
      b64Decode (b64Encode bs) = some bs
  | [], _ => rfl
  | [b1], h => by
    have hb1 : b1 < 256 := h b1 (by simp)
    have hm : b1 % 256 = b1 := Nat.mod_eq_of_lt hb1
    simp only [b64Encode, b64Decode, b64CharVal_idx, hm]
    norm_num
    omega
  | [b1, b2], h => by
    have hb1 : b1 < 256 := h b1 (by simp)
    have hb2 : b2 < 256 := h b2 (by simp)
    have hm1 : b1 % 256 = b1 := Nat.mod_eq_of_lt hb1
    have hm2 : b2 % 256 = b2 := Nat.mod_eq_of_lt hb2
    simp only [b64Encode, b64Decode, b64CharVal_idx, hm1, hm2]
    rw [if_neg (b64Idx_ne_pad _)]
    norm_num
    constructor
    · omega
    · omega
  | b1 :: b2 :: b3 :: rest, h => by
    have hb1 : b1 < 256 := h b1 (by simp)
    have hb2 : b2 < 256 := h b2 (by simp)
    have hb3 : b3 < 256 := h b3 (by simp)
    have hm1 : b1 % 256 = b1 := Nat.mod_eq_of_lt hb1
    have hm2 : b2 % 256 = b2 := Nat.mod_eq_of_lt hb2
    have hm3 : b3 % 256 = b3 := Nat.mod_eq_of_lt hb3
    have hrest := b64_roundtrip rest
      (fun b hb => h b (by simp [hb]))
    simp only [b64Encode, b64Decode, b64CharVal_idx, hm1, hm2, hm3]
    rw [if_neg (b64Idx_ne_pad _), if_neg (b64Idx_ne_pad _)]
    simp only [hrest, Option.map_some]
    norm_num
    refine ⟨?_, ?_, ?_⟩
    · omega
    · omega
    · omega

end TranslateBot

namespace TranslateBot

/-- Helper: a base64url encoding is alphabet characters followed by at most
two padding characters, with total length a multiple of four. -/
theorem b64Encode_shape :
    ∀ (bs : List Nat), ∃ body npad,
      b64Encode bs = body ++ List.replicate npad '=' ∧ npad ≤ 2 ∧
      (∀ c ∈ body, c ∈ b64Alphabet) ∧ (body.length + npad) % 4 = 0
  | [] => ⟨[], 0, rfl, by omega, by simp, by simp⟩
  | [b1] => by
    refine ⟨[b64Idx (b1 % 256 * 65536 / 262144),
      b64Idx (b1 % 256 * 65536 / 4096)], 2, ?_, by omega, ?_, by simp⟩
    · rfl
    · intro c hc
      simp only [List.mem_cons, List.not_mem_nil, or_false] at hc
      rcases hc with h | h
      · exact h ▸ b64Idx_mem _
      · exact h ▸ b64Idx_mem _
  | [b1, b2] => by
    refine ⟨[b64Idx ((b1 % 256 * 65536 + b2 % 256 * 256) / 262144),
      b64Idx ((b1 % 256 * 65536 + b2 % 256 * 256) / 4096),
      b64Idx ((b1 % 256 * 65536 + b2 % 256 * 256) / 64)], 1, ?_, by omega,
      ?_, by simp⟩
    · rfl
    · intro c hc
      simp only [List.mem_cons, List.not_mem_nil, or_false] at hc
      rcases hc with h | h | h
      · exact h ▸ b64Idx_mem _
      · exact h ▸ b64Idx_mem _
      · exact h ▸ b64Idx_mem _
  | b1 :: b2 :: b3 :: rest => by
    obtain ⟨body, npad, heq, hle, hmem, hmod⟩ := b64Encode_shape rest
    refine ⟨b64Idx ((b1 % 256 * 65536 + b2 % 256 * 256 + b3 % 256) / 262144)
      :: b64Idx ((b1 % 256 * 65536 + b2 % 256 * 256 + b3 % 256) / 4096)
      :: b64Idx ((b1 % 256 * 65536 + b2 % 256 * 256 + b3 % 256) / 64)
      :: b64Idx (b1 % 256 * 65536 + b2 % 256 * 256 + b3 % 256) :: body,
      npad, ?_, hle, ?_, ?_⟩
    · simp only [b64Encode, heq]
      rfl
    · intro c hc
      simp only [List.mem_cons] at hc
      rcases hc with h | h | h | h | h
      · exact h ▸ b64Idx_mem _
      · exact h ▸ b64Idx_mem _
      · exact h ▸ b64Idx_mem _
      · exact h ▸ b64Idx_mem _
      · exact hmem c h
    · simp only [List.length_cons]
      omega

/-- Helper: dropping the padding characters from the front of a reversed
token skips exactly the replicate block. -/
theorem dropWhile_pad_replicate (l : List Char) :
    ∀ n, List.dropWhile (fun c => c = '=') (List.replicate n '=' ++ l) =
      List.dropWhile (fun c => c = '=') l := by
  intro n
  induction n with
  | zero => rfl
  | succ m ih => simp [List.replicate_succ, List.dropWhile, ih]

/-- Helper: `rstrip("=")` of an alphabet body plus padding is the body. -/
theorem rstrip_replicate (body : List Char) (n : Nat)
    (hbody : ∀ c ∈ body, c ∈ b64Alphabet) :
    pyRstripEq (body ++ List.replicate n '=') = body := by
  rw [pyRstripEq, List.reverse_append, List.reverse_replicate,
    dropWhile_pad_replicate]
  have h2 : List.dropWhile (fun c => decide (c = '=')) body.reverse =
      body.reverse := by
    cases hrev : body.reverse with
    | nil => rfl
    | cons x xs =>
      have hx : x ∈ body := by
        rw [show body = body.reverse.reverse from
          (List.reverse_reverse body).symm, List.mem_reverse, hrev]
        simp
      have hxne : ¬ x = '=' := by
        intro he
        have := hbody x hx
        rw [he] at this
        revert this
        decide
      simp [List.dropWhile, hxne]
  rw [h2, List.reverse_reverse]

end TranslateBot

namespace TranslateBot

/-- Helper: `startswith` holds on any extension of the pattern. -/
theorem listStartsWith_append (pat rest : List Char) :
    listStartsWith pat (pat ++ rest) = true := by
  induction pat with
  | nil => rfl
  | cons x xs ih => simp [listStartsWith, ih]

/-- Helper: splitting once at the first separator occurrence. -/
theorem pySplitOnce_append (c : Char) (rest : List Char) :
    ∀ pre : List Char, c ∉ pre →
      pySplitOnce c (pre ++ c :: rest) = some (pre, rest) := by
  intro pre
  induction pre with
  | nil => intro _; simp [pySplitOnce]
  | cons x xs ih =>
    intro h
    have hx : ¬ x = c := fun he => h (by simp [he])
    have hxs : c ∉ xs := fun hm => h (by simp [hm])
    simp [pySplitOnce, hx, ih hxs]

/-- Helper: no separator, no split. -/
theorem pySplitOnce_eq_none (c : Char) :
    ∀ s : List Char, c ∉ s → pySplitOnce c s = none := by
  intro s
  induction s with
  | nil => intro _; rfl
  | cons x xs ih =>
    intro h
    have hx : ¬ x = c := fun he => h (by simp [he])
    have hxs : c ∉ xs := fun hm => h (by simp [hm])
    simp [pySplitOnce, hx, ih hxs]

/-- Helper: a separator occurrence guarantees a split. -/
theorem pySplitOnce_isSome (c : Char) :
    ∀ s : List Char, c ∈ s → (pySplitOnce c s).isSome = true := by
  intro s
  induction s with
  | nil => intro h; exact absurd h (List.not_mem_nil c)
  | cons x xs ih =>
    intro h
    by_cases hx : x = c
    · simp [pySplitOnce, hx]
    · have hxs : c ∈ xs := by
        rcases List.mem_cons.1 h with he | hm
        · exact absurd he.symm hx
        · exact hm
      rcases Option.isSome_iff_exists.1 (ih hxs) with ⟨pr, hpr⟩
      simp [pySplitOnce, hx, hpr]

/-- Helper: decoding a well-formed langpref2 token reaches the base64,
decompression and parse stages in order. -/
theorem decode_langpref2_token {P : Type} (env : CodecEnv P)
    (body : List Char) (hmem : ∀ c ∈ body, c ∈ b64Alphabet) :
    decodePostbackPayload env ("langpref2=".data ++ body) =
      (match b64Decode
          (body ++ List.replicate ((4 - body.length % 4) % 4) '=') with
        | none => .ok none
        | some blob =>
          match env.zlibDecompress blob with
          | none => .ok none
          | some blob3 =>
            match env.jsonLoadsUtf8 blob3 with
            | none => .ok none
            | some payload => .ok (some payload)) := by
  have hpadmem : '=' ∉ body := by
    intro hm
    have := hmem '=' hm
    revert this
    decide
  have h0 : ("langpref2=".data ++ body).isEmpty = false := rfl
  have h1 : listStartsWith "langpref".data ("langpref2=".data ++ body) =
      true := by
    have he : "langpref2=".data ++ body =
        "langpref".data ++ ("2=".data ++ body) := rfl
    rw [he]
    exact listStartsWith_append _ _
  have h2 : pySplitOnce '=' ("langpref2=".data ++ body) =
      some ("langpref2".data, body) := by
    have he : "langpref2=".data ++ body =
        "langpref2".data ++ '=' :: body := rfl
    rw [he]
    exact pySplitOnce_append '=' body "langpref2".data (by decide)
  simp only [decodePostbackPayload, h0, h1, h2]
  simp

end TranslateBot

namespace TranslateBot

/-- C4 amended: for every payload whose compact serialisation compresses and
encodes to within the 280-byte ceiling, the encoder performs no shrinking and
decoding the token restores the payload exactly; decoding any input that
matches no scheme tag returns no payload without raising, and decoding any
"langpref"-headed input that contains an equals sign also returns without
raising — but a "langpref"-headed input with no equals sign raises
`ValueError` from the tuple unpacking that precedes the `try` block, so the
original claim's "never raises" is false there. -/
theorem codec_roundtrip_and_decode_behavior {P : Type} (env : CodecEnv P)
    (ops : PayloadOps P) (p : P)
    (hbytes : ∀ b ∈ env.zlibCompress (env.jsonDumpsUtf8 p), b < 256)
    (hzlib : env.zlibDecompress (env.zlibCompress (env.jsonDumpsUtf8 p)) =
      some (env.jsonDumpsUtf8 p))
    (hjson : env.jsonLoadsUtf8 (env.jsonDumpsUtf8 p) = some p)
    (hfit : utf8Len (encodeToken env p) ≤ 280) :
    encodePostbackPayload env ops p 280 = encodeToken env p ∧
    decodePostbackPayload env (encodeToken env p) = .ok (some p) ∧
    (∀ s : List Char, listStartsWith "langpref".data s = false →
      listStartsWith "subctrl=".data s = false →
      decodePostbackPayload env s = .ok none) ∧
    (∀ s : List Char, listStartsWith "langpref".data s = true → '=' ∈ s →
      ∃ r, decodePostbackPayload env s = .ok r) ∧
    (∀ s : List Char, listStartsWith "langpref".data s = true → '=' ∉ s →
      decodePostbackPayload env s =
        .error (.valueError "not enough values to unpack")) := by
  refine ⟨?_, ?_, ?_, ?_, ?_⟩
  · simp only [encodePostbackPayload]
    rw [if_pos hfit]
  · obtain ⟨body, npad, hshape, hle2, hmem, hmod⟩ :=
      b64Encode_shape (env.zlibCompress (env.jsonDumpsUtf8 p))
    have hbody : pyRstripEq
        (b64Encode (env.zlibCompress (env.jsonDumpsUtf8 p))) = body := by
      rw [hshape]
      exact rstrip_replicate body npad hmem
    have henc : encodeToken env p = "langpref2=".data ++ body := by
      rw [encodeToken, hbody]
    rw [henc, decode_langpref2_token env body hmem]
    have hpad : (4 - body.length % 4) % 4 = npad := by omega
    rw [hpad, ← hshape]
    simp only [b64_roundtrip _ hbytes, hzlib, hjson]
  · intro s h1 h2
    by_cases hs : s.isEmpty = true
    · simp [decodePostbackPayload, hs]
    · simp [decodePostbackPayload, eq_false_of_ne_true hs, h1, h2]
  · intro s h1 hin
    have hempty : s.isEmpty = false := by
      cases s with
      | nil => exact absurd h1 (by simp [listStartsWith])
      | cons a l => rfl
    obtain ⟨pr, hpr⟩ := Option.isSome_iff_exists.1
      (pySplitOnce_isSome '=' s hin)
    obtain ⟨tag, token⟩ := pr
    cases hb : b64Decode
        (token ++ List.replicate ((4 - token.length % 4) % 4) '=') with
    | none =>
      exact ⟨none, by simp [decodePostbackPayload, hempty, h1, hpr, hb]⟩
    | some blob =>
      by_cases htag : tag = "langpref2".data
      · cases hz : env.zlibDecompress blob with
        | none =>
          exact ⟨none,
            by simp [decodePostbackPayload, hempty, h1, hpr, hb, htag, hz]⟩
        | some blob3 =>
          cases hj : env.jsonLoadsUtf8 blob3 with
          | none =>
            exact ⟨none, by
              simp [decodePostbackPayload, hempty, h1, hpr, hb, htag, hz, hj]⟩
          | some payload =>
            exact ⟨some payload, by
              simp [decodePostbackPayload, hempty, h1, hpr, hb, htag, hz, hj]⟩
      · cases hj : env.jsonLoadsUtf8 blob with
        | none =>
          exact ⟨none,
            by simp [decodePostbackPayload, hempty, h1, hpr, hb, htag, hj]⟩
        | some payload =>
          exact ⟨some payload,
            by simp [decodePostbackPayload, hempty, h1, hpr, hb, htag, hj]⟩
  · intro s h1 hnotin
    have hempty : s.isEmpty = false := by
      cases s with
      | nil => exact absurd h1 (by simp [listStartsWith])
      | cons a l => rfl
    have hsplit := pySplitOnce_eq_none '=' s hnotin
    simp [decodePostbackPayload, hempty, h1, hsplit]

end TranslateBot

namespace TranslateBot

/-- C4 fails as stated: the input "langpref" (a truncated token with no equals
sign) makes `decode_postback_payload` raise `ValueError` instead of returning
"no payload", because the `split("=", 1)` unpacking precedes the `try`
block. -/
theorem decode_raises_on_langpref_counterexample :
    decodePostbackPayload witCodecNat "langpref".data =
      .error (.valueError "not enough values to unpack") := by rfl

/-- Witness for the amended C4: payload 7 under the identity-compression
environment fits the ceiling, is not shrunk, and round-trips through
decode. -/
theorem codec_roundtrip_witness :
    encodePostbackPayload witCodecNat natPayloadOps 7 280 =
      encodeToken witCodecNat 7 ∧
    decodePostbackPayload witCodecNat (encodeToken witCodecNat 7) =
      .ok (some 7) :=
  ⟨(codec_roundtrip_and_decode_behavior witCodecNat natPayloadOps 7
      (by decide) rfl rfl (by decide)).1,
    (codec_roundtrip_and_decode_behavior witCodecNat natPayloadOps 7
      (by decide) rfl rfl (by decide)).2.1⟩

end TranslateBot
